import Mathlib

/-!
Verification development for the hansard-speakers disambiguation worker
(src/hansard/worker.py and src/run.py), shallowly embedded in Lean.

Strings are handled as `List Char` internally; dates (`datetime` in the
source) are modelled as integers under their usual order, since the code
only ever compares them.
-/

namespace Hansard

/-- Association-list lookup (first binding wins), modelling Python `dict.get`:
a later `d[k] = v` is modelled by prepending, so the first binding is the
current one. -/
def alookup {α β : Type} [DecidableEq α] : List (α × β) → α → Option β
  | [], _ => none
  | (k, v) :: rest, key => if k = key then some v else alookup rest key

/-- `needle` occurs as a contiguous sublist of `hay`. -/
def listInfix [DecidableEq α] (needle : List α) : List α → Bool
  | [] => needle.isEmpty
  | x :: xs => needle.isPrefixOf (x :: xs) || listInfix needle xs

/-- Python `needle in hay` on strings (substring test). -/
def strContains (hay needle : String) : Bool :=
  listInfix needle.toList hay.toList

/-- Python `str.strip()` (list-based so that kernel reduction works). -/
def pyStrip (s : String) : String :=
  ⟨((s.toList.dropWhile Char.isWhitespace).reverse.dropWhile Char.isWhitespace).reverse⟩

/-- Python `str.startswith` (list-based). -/
def strStartsWith (s pre : String) : Bool :=
  pre.toList.isPrefixOf s.toList

/-- Python `'|'.join` (list-based). -/
def joinBar : List String → String
  | [] => ""
  | [x] => x
  | x :: y :: rest => x ++ "|" ++ joinBar (y :: rest)

/-- `pandas.DataFrame.drop_duplicates` keeps the first row per key value. -/
def dedupKeepFirst {α : Type} [DecidableEq α] : List α → List α :=
  go []
where
  go (seen : List α) : List α → List α
    | [] => []
    | x :: xs => if x ∈ seen then go seen xs else x :: go (x :: seen) xs

/-! ## A regex engine for the subset of Python `re` used by the worker

The worker's substitution patterns use only: the `^` and `$` anchors,
literal characters, `.`, character classes like `[a-z ]`, the quantifiers
`+`, `*`, `?` applied to a single-character atom, the word boundary `\b`,
escaped literals such as `\-`, and non-capturing use of `(`/`)` (the one
occurrence `(.*)` is never referenced in a replacement).  For this subset a
backtracking matcher with greedy preference reproduces `re.sub` exactly:
leftmost match position, greedy quantifiers, all non-overlapping matches
replaced by the literal replacement text. -/

/-- Single-character atom of a pattern. -/
inductive CAtom : Type
  | lit (c : Char)
  | anyc
  | cls (cs : List Char)
deriving DecidableEq

/-- Pattern token: an atom, a quantified atom, or a word boundary. -/
inductive RTok : Type
  | one (a : CAtom)
  | star (a : CAtom)
  | plus (a : CAtom)
  | opt (a : CAtom)
  | wb
deriving DecidableEq

/-- A compiled pattern: start anchor, token list, end anchor. -/
structure RPat : Type where
  anchS : Bool
  toks : List RTok
  anchE : Bool
deriving DecidableEq

def atomMatch : CAtom → Char → Bool
  | .lit c, x => c = x
  | .anyc, _ => true
  | .cls cs, x => cs.contains x

/-- Python `\w` (ASCII view, which covers every pattern in the worker). -/
def isWordChar (c : Char) : Bool :=
  c.isAlphanum || c = '_'

/-- Length of the maximal prefix of `s` matching atom `a`. -/
def runLen (a : CAtom) : List Char → Nat
  | [] => 0
  | c :: s => if atomMatch a c then runLen a s + 1 else 0

/-- Greedy backtracking: try consuming `k, k-1, ..., minOne` characters with
the already-checked atom run, continuing with `f prev rest`; `f` receives
the character preceding the remainder (for `\b`). -/
def tryCnt (f : Option Char → List Char → Option Nat) (prev : Option Char)
    (s : List Char) (minOne : Bool) : Nat → Option Nat
  | 0 => if minOne then none else f prev s
  | k + 1 =>
    match f (s.get? k) (s.drop (k + 1)) with
    | some n => some (n + k + 1)
    | none => tryCnt f prev s minOne k

/-- Match the token list against a prefix of `s`; `prev` is the character
just before `s` in the subject (for `\b`), `aE` requires the match to end at
the end of the subject (`$`).  Returns the number of characters consumed by
the first match in Python's preference order. -/
def matchToks : List RTok → Option Char → List Char → Bool → Option Nat
  | [], _, s, aE => if aE then (if s.isEmpty then some 0 else none) else some 0
  | .wb :: ts, prev, s, aE =>
    let before := (prev.map isWordChar).getD false
    let after := ((s.head?).map isWordChar).getD false
    if before ≠ after then matchToks ts prev s aE else none
  | .one a :: ts, _, s, aE =>
    match s with
    | [] => none
    | c :: s2 =>
      if atomMatch a c then (matchToks ts (some c) s2 aE).map (· + 1) else none
  | .opt a :: ts, prev, s, aE =>
    (match s with
     | [] => none
     | c :: s2 =>
       if atomMatch a c then (matchToks ts (some c) s2 aE).map (· + 1) else none).orElse
      (fun _ => matchToks ts prev s aE)
  | .star a :: ts, prev, s, aE =>
    tryCnt (fun p r => matchToks ts p r aE) prev s false (runLen a s)
  | .plus a :: ts, prev, s, aE =>
    tryCnt (fun p r => matchToks ts p r aE) prev s true (runLen a s)

/-- One scanning step of `re.sub`: at the current position (preceded by
`prev`, `atStart` iff position 0), replace a match or copy one character.
`fuel` bounds the recursion (the subject length suffices). -/
def reSubGo (p : RPat) (repl : List Char) : Nat → Option Char → Bool → List Char → List Char
  | 0, _, _, s => s
  | fuel + 1, prev, atStart, s =>
    match (if p.anchS && !atStart then none else matchToks p.toks prev s p.anchE) with
    | some n =>
      if n = 0 then
        match s with
        | [] => repl
        | c :: s2 => repl ++ c :: reSubGo p repl fuel (some c) false s2
      else
        repl ++ reSubGo p repl fuel ((s.take n).getLast? ) false (s.drop n)
    | none =>
      match s with
      | [] => []
      | c :: s2 => c :: reSubGo p repl fuel (some c) false s2

/-- Parse a character class body (after `[`), returning the characters and
the rest of the pattern.  Supports `a-z` ranges and `\`-escapes, which is
all the worker uses. -/
def parseClass : Nat → List Char → List Char → (List Char × List Char)
  | 0, acc, rest => (acc, rest)
  | _ + 1, acc, [] => (acc, [])
  | fuel + 1, acc, c :: rest =>
    if c = ']' then (acc, rest)
    else if c = '\\' then
      match rest with
      | [] => (acc, [])
      | e :: rest2 => parseClass fuel (acc ++ [e]) rest2
    else
      match rest with
      | '-' :: hi :: rest2 =>
        if hi = ']' then parseClass fuel (acc ++ [c, '-']) rest2.tail
        else
          let lo := c.toNat
          let n := hi.toNat + 1 - lo
          parseClass fuel (acc ++ (List.range n).map (fun i => Char.ofNat (lo + i))) rest2
      | _ => parseClass fuel (acc ++ [c]) rest

/-- Tokenize the pattern body (anchors already stripped): read one atom,
then attach a following quantifier if present. -/
def parseToks : Nat → List Char → List RTok
  | 0, _ => []
  | fuel + 1, s =>
    match s with
    | [] => []
    | '\\' :: 'b' :: rest => .wb :: parseToks fuel rest
    | '(' :: '?' :: ':' :: rest => parseToks fuel rest
    | '(' :: rest => parseToks fuel rest
    | ')' :: rest => parseToks fuel rest
    | s0 =>
      let ar : CAtom × List Char :=
        match s0 with
        | '\\' :: c :: rest => (.lit c, rest)
        | '[' :: rest =>
          let (cs, rest2) := parseClass rest.length [] rest
          (.cls cs, rest2)
        | '.' :: rest => (.anyc, rest)
        | c :: rest => (.lit c, rest)
        | [] => (.anyc, [])
      match ar.2 with
      | '+' :: r2 => .plus ar.1 :: parseToks fuel r2
      | '*' :: r2 => .star ar.1 :: parseToks fuel r2
      | '?' :: r2 => .opt ar.1 :: parseToks fuel r2
      | r2 => .one ar.1 :: parseToks fuel r2

/-- Compile a pattern string. -/
def parsePattern (pat : String) : RPat :=
  let l := pat.toList
  let (aS, l1) := match l with
    | '^' :: rest => (true, rest)
    | _ => (false, l)
  let (aE, l2) :=
    match l1.getLast? with
    | some '$' => (true, l1.dropLast)
    | _ => (false, l1)
  ⟨aS, parseToks (l2.length + 1) l2, aE⟩

/-- Python `re.sub(pat, repl, s)` for the supported pattern subset. -/
def reSub (pat repl : String) (s : String) : String :=
  let p := parsePattern pat
  ⟨reSubGo p repl.toList (s.length + 1) none true s.toList⟩

/-- Python `str.replace(needle, repl)` (all occurrences, left to right);
an empty needle is left alone (the correction tables never contain one). -/
def replaceAll : Nat → List Char → List Char → List Char → List Char
  | 0, _, _, s => s
  | _ + 1, _, _, [] => []
  | fuel + 1, needle, repl, c :: s =>
    if needle.isEmpty then c :: s
    else if needle.isPrefixOf (c :: s) then
      repl ++ replaceAll fuel needle repl ((c :: s).drop needle.length)
    else c :: replaceAll fuel needle repl s

def strReplace (s needle repl : String) : String :=
  ⟨replaceAll (s.length + 1) needle.toList repl.toList s.toList⟩

/-- The first match of `PARENTHESIS_REGEX = \(([^()]+)\)`: the leftmost
`(`, followed by a nonempty run of non-parenthesis characters, followed by
`)`; returns the captured inner run. -/
def findParen : List Char → Option (List Char)
  | [] => none
  | c :: s =>
    if c = '(' then
      let run := s.takeWhile (fun x => x ≠ '(' && x ≠ ')')
      if !run.isEmpty && ((s.drop run.length).head? == some ')') then some run
      else findParen s
    else findParen s

/-- `re.sub` of `REGEX_PRE_CORRECTIONS`' single pattern `(?:\([^()]+\))`
with the empty replacement: every parenthesized segment without nested
parentheses is deleted. -/
def removeParens : Nat → List Char → List Char
  | 0, s => s
  | fuel + 1, s =>
    match s with
    | [] => []
    | c :: rest =>
      if c = '(' then
        let run := rest.takeWhile (fun x => x ≠ '(' && x ≠ ')')
        if !run.isEmpty && ((rest.drop run.length).head? == some ')') then
          removeParens fuel (rest.drop (run.length + 1))
        else c :: removeParens fuel rest
      else c :: removeParens fuel rest

end Hansard

namespace Hansard

/-- The ordered post-correction substitution list from src/hansard/worker.py
lines 31-425 (pattern, replacement), applied in order by `postprocess`. -/
def REGEX_POST_CORRECTIONS : List (String × String) := [
  ("^this +", "the "),
  ("^thr +", "the "),
  ("^then +", "the "),
  ("^tee +", "the "),
  ("^thh +", "the "),
  ("^tue +", "the "),
  ("^tmk +", "the "),
  ("^tub +", "the "),
  ("^he +", "the "),
  ("^tim +", "the "),
  ("^tme +", "the "),
  ("^tihe +", "the "),
  ("^thk +", "the "),
  ("^thb +", "the "),
  ("^tre +", "the "),
  ("^tile +", "the "),
  ("^tiie +", "the "),
  ("^t he +", "the "),
  ("^the +", ""),
  ("^me +", "mr "),
  ("^mb +", "mr "),
  ("^mer +", "mr "),
  ("^mh +", "mr "),
  ("^mil +", "mr "),
  ("^mk +", "mr "),
  ("^mp +", "mr "),
  ("^ma +", "mr "),
  ("^mi +", "mr "),
  ("^mk +", "mr "),
  ("^m r +", "mr "),
  ("^dir +", "dr "),
  ("^dk +", "dr "),
  ("^de +", "dr "),
  ("^vick +", "vice "),
  (" image srcsvpi colcol", ""),
  ("^marquis +", "marquess "),
  ("^marqess +", "marquess "),
  ("^mauquess +", "marquess "),
  ("^manquess +", "marquess "),
  ("^marguess +", "marquess "),
  ("^marquees +", "marquess "),
  ("^marques +", "marquess "),
  ("^marquese +", "marquess "),
  ("^marquese +", "marquess "),
  ("^marquesss +", "marquess "),
  ("^mabquess +", "marquess "),
  ("^maeqttess +", "marquess "),
  ("^maequess +", "marquess "),
  ("^marqdess +", "marquess "),
  ("^marqiess +", "marquess "),
  ("^marqtjess +", "marquess "),
  ("^manquess +", "marquess "),
  ("^marguess +", "marquess "),
  ("^marquees +", "marquess "),
  ("^marques +", "marquess "),
  ("^marquese +", "marquess "),
  ("^marquese +", "marquess "),
  ("^vicount +", "viscount "),
  ("^viscovnt +", "viscount "),
  ("^vicsount +", "viscount "),
  ("^vis- count +", "viscount "),
  ("^viscocnt +", "viscount "),
  ("^viscodnt +", "viscount "),
  ("^viscolunt +", "viscount "),
  ("^viscotint +", "viscount "),
  ("^viscotjnt +", "viscount "),
  ("^viscouint +", "viscount "),
  ("^viscoun +", "viscount "),
  ("^viscouxt +", "viscount "),
  ("^viscwnt +", "viscount "),
  ("^visoount +", "viscount "),
  ("^vtscount +", "viscount "),
  ("^viscuont +", "viscount "),
  ("^viscoust +", "viscount "),
  ("^viscounty +", "viscount "),
  ("^visct +", "viscount "),
  ("^lord viscount +", "viscount "),
  ("^lord speaker +", "speaker "),
  ("^lerd +", "lord "),
  ("^lard +", "lord "),
  ("^loed +", "lord "),
  ("^loro +", "lord "),
  ("^loud +", "lord "),
  ("^lort +", "lord "),
  ("^loup +", "lord "),
  ("^lobd +", "lord "),
  ("^loan +", "lord "),
  ("^load +", "lord "),
  ("^lokd +", "lord "),
  ("^lold +", "lord "),
  ("^lore +", "lord "),
  ("^lorn +", "lord "),
  ("^lorrd +", "lord "),
  ("^lors +", "lord "),
  ("^losd +", "lord "),
  ("^lose +", "lord "),
  ("^lour +", "lord "),
  ("^lrd +", "lord "),
  ("^ord +", "lord "),
  ("^earb +", "earl "),
  ("^ear +", "earl "),
  ("^ealr +", "earl "),
  ("^eari +", "earl "),
  ("^eaul +", "earl "),
  ("^early +", "earl "),
  ("^east +", "earl "),
  ("^eeal +", "earl "),
  ("^arl +", "earl "),
  ("^eahl +", "earl "),
  ("^eael +", "earl "),
  ("^eakl +", "earl "),
  ("^eard +", "earl "),
  ("^eall +", "earl "),
  ("^eart +", "earl "),
  ("^farl +", "earl "),
  ("^dike +", "duke "),
  ("^duek +", "duke "),
  ("^ducke +", "duke "),
  ("^duck +", "duke "),
  ("^chamberlatn +", "chamberlain "),
  ("^sib +", "sir "),
  ("^sin +", "sir "),
  ("^sit +", "sir "),
  ("^sip +", "sir "),
  ("^siu +", "sir "),
  ("^sik +", "sir "),
  ("^sat +", "sir "),
  ("^sie +", "sir "),
  ("^silt +", "sir "),
  ("^sri +", "sir "),
  ("^sr +", "sir "),
  ("^str +", "sir "),
  ("^air +", "sir "),
  ("^si +", "sir "),
  ("^sdi +", "sir "),
  ("^slr +", "sir "),
  ("^abmiral +", "admiral "),
  ("^admtral +", "admiral "),
  ("^admieal +", "admiral "),
  ("^abmiral +", "admiral "),
  ("^admiraj +", "admiral "),
  ("^admibal +", "admiral "),
  ("^admtralty +", "admiralty "),
  ("^adralty +", "admiralty "),
  ("^admihalty +", "admiralty "),
  ("^ad-jmiralty +", "admiralty "),
  ("^admil alty +", "admiralty "),
  ("^admir alty +", "admiralty "),
  ("^trea-iury +", "treasury "),
  ("^trea-treasury +", "treasury "),
  ("^treastry +", "treasury "),
  ("^trea sury +", "treasury "),
  ("^cafiain +", "captain "),
  ("^caftain +", "captain "),
  ("^caitain +", "captain "),
  ("^capain +", "captain "),
  ("^capatain +", "captain "),
  ("^capiain +", "captain "),
  ("^capt +", "captain "),
  ("^vaptain +", "captain "),
  ("^col +", "colonel "),
  ("^colconel +", "colonel "),
  ("^coionel +", "colonel "),
  ("^colnel +", "colonel "),
  ("^colokel +", "colonel "),
  ("^colonal +", "colonel "),
  ("^colonbl +", "colonel "),
  ("^coloxel +", "colonel "),
  ("^colonl +", "colonel "),
  ("^colosel +", "colonel "),
  ("^colonei +", "colonel "),
  ("^eirst +", "first "),
  ("^fiest +", "first "),
  ("^archblsiiop +", "archbishop "),
  ("^bistiop +", "bishop "),
  ("^bisliop +", "bishop "),
  ("^bisiiop +", "bishop "),
  ("^bistiop +", "bishop "),
  ("^lord bishop +", "bishop "),
  ("^atiorney +", "attorney"),
  ("^attornby +", "attorney"),
  ("^attorne +", "attorney"),
  ("^attorney- +", "attorney"),
  ("^ge neral  +", "general "),
  ("^gen  +", "general "),
  ("^genebal  +", "general "),
  ("^generai  +", "general "),
  ("^genekal  +", "general "),
  ("^genenal  +", "general "),
  ("^genera  +", "general "),
  ("^gexeral  +", "general "),
  ("^geneeal  +", "general "),
  ("^gen  +", "general "),
  ("^solioitor +", "solicitor "),
  ("^solicttor +", "solicitor "),
  ("^solioitor +", "solicitor "),
  ("peivy", "privy"),
  ("chanoellor", "chancellor"),
  ("chancellor of the e xciiequer", "chancellor of the exchequer"),
  ("chancellor of the exchequer-chequer", "chancellor of the exchequer"),
  ("changellor of the exche-quer", "chancellor of the exchequer"),
  ("chancellor the exchequee", "chancellor of the exchequer"),
  ("chancellor of theexche-quer", "chancellor of the exchequer"),
  ("chancellor of we exchequer", "chancellor of the exchequer"),
  ("cbancellor of the exche-quer", "chancellor of the exchequer"),
  ("^chan of the exchequer$", "chancellor of the exchequer"),
  ("^chancellor the exchequee$", "chancellor of the exchequer"),
  ("^chanc of the excheq$", "chancellor of the exchequer"),
  ("^chancellok of the exche-quek$", "chancellor of the exchequer"),
  ("^chancellor of the exchequerchequer$", "chancellor of the exchequer"),
  ("^chanc of the exchequer$", "chancellor of the exchequer"),
  ("^chanc of the exchequer$", "chancellor of the exchequer"),
  ("^chancelloe of the exche-quer$", "chancellor of the exchequer"),
  ("^chanc of tie excheq$", "chancellor of the exchequer"),
  ("^chanckllor of the exchequer$", "chancellor of the exchequer"),
  ("^chancellor of file exchequer$", "chancellor of the exchequer"),
  ("^chancelloerof the exche-quer$", "chancellor of the exchequer"),
  ("^chancelloe of the ex-chequee$", "chancellor of the exchequer"),
  ("^chancelloe of the exchequer$", "chancellor of the exchequer"),
  ("^chancellor of the ex-cheqner$", "chancellor of the exchequer"),
  ("^chancellor ok the exchequerr$", "chancellor of the exchequer"),
  ("^chancellor of tub exchequerr$", "chancellor of the exchequer"),
  ("^chancellor ok thk exchequerr$", "chancellor of the exchequer"),
  ("^chancellob of the exchequerr$", "chancellor of the exchequer"),
  ("^chancelor of the exchequerr$", "chancellor of the exchequer"),
  ("^chancelloe of the exche-quer$", "chancellor of the exchequer"),
  ("^the chan. of the exchequer$", "chancellor of the exchequer"),
  ("^the chanc. of the exchequer$", "chancellor of the exchequer"),
  ("^the chancellar the exchequer$", "chancellor of the exchequer"),
  ("^the chancellor if the exchequer$", "chancellor of the exchequer"),
  ("^the Chancellor of die exchequer$", "chancellor of the exchequer"),
  ("^the chancellor of tie exchequer$", "chancellor of the exchequer"),
  ("^chanc. of tie excheq.$", "chancellor of the exchequer"),
  ("ex-chequer", "exchequer"),
  ("excheque", "exchequer"),
  ("hie bxchequer", "exchequer"),
  ("mrjor", "major"),
  ("^chairman of ways achancellor of tub exchequerrnd means$", "chairman"),
  ("^chairman ways and means$", "chairman"),
  ("^chat rman of ways and means$", "chairman"),
  ("^ghairman of ways and means$", "chairman"),
  ("^chairman airman of ways and means$", "chairman"),
  ("^chairman of wats and means$", "chairman"),
  ("^chairman of ways and means$", "chairman"),
  ("^chairman of was and means$", "chairman"),
  ("^chairman ways and means$", "chairman"),
  ("^chat rman of ways and means$", "chairman"),
  ("^chairman airman of ways and means$", "chairman"),
  ("^chairman of committees of ways and means$", "chairman"),
  ("^chairman of committees$", "chairman"),
  ("^chairman of commhtees$", "chairman"),
  ("^chairman of commitmees$", "chairman"),
  ("^ceairman$", "chairman"),
  ("^mr chairman$", "chairman"),
  ("^ceairman$", "chairman"),
  ("^chair man$", "chairman"),
  ("speaker-elect", "speaker"),
  ("memberconstituencymemberconstituency", ""),
  ("^a +", ""),
  ("^and +", ""),
  ("^answered by +", ""),
  ("^another +", ""),
  ("^both +", ""),
  ("^by +", ""),
  ("^here +", ""),
  (" on$", ""),
  (" said$", ""),
  (" ampc$", ""),
  ("ampc$", ""),
  (" i$", ""),
  (" replied$", ""),
  (" continued$", ""),
  (" presumed$", ""),
  (" resumed$", ""),
  (" resuming$", ""),
  (" also$", ""),
  (" felt$", ""),
  (" avar$", " war"),
  ("irelandland", "ireland"),
  (" tiie ", " the "),
  (" tile ", " the "),
  (" de ", " of "),
  (" oe ", " of "),
  (" uf ", " of "),
  (" op ", " of "),
  (" or ", " of "),
  (" ov ", " of "),
  (" fob ", " for "),
  (" foe ", " for "),
  (" toe ", " for "),
  (" statf ", " state "),
  (" boaed ", " board "),
  (" statf$", " state$"),
  ("under +secretary", "under-secretary"),
  ("under +- +secretary", "under-secretary"),
  ("secketay +", "secretary"),
  ("lieutenant[\\- ]?colonel +", ""),
  ("lieut(.*)col", ""),
  ("lieut", ""),
  ("^the hon ", ""),
  ("memberconstituency", ""),
  ("^right hon +", ""),
  (" +observed$", ""),
  ("^general sir +", "sir "),
  ("^mr secretary +", "mr "),
  ("^vice-president of the council +", "vice-president of the committee of council on education"),
  ("^vice president of the council +", "vice-president of the committee of council on education"),
  ("^the vice president of the council +", "vice-president of the committee of council on education"),
  ("^secretary of state for war +", ""),
  ("^president of the local government board +", ""),
  ("^president of the board of agriculture +", ""),
  ("^president of the board of trade +", ""),
  ("^secretary of state for the home department +", ""),
  ("^secretary of state for the colonies +", ""),
  ("^secretary to the treasurey +", ""),
  ("^first commissioner of works +", ""),
  ("^secretary to the admiralty +", ""),
  ("^secretary of state for india +", ""),
  ("^secretary to the local government board +", ""),
  ("^parliamentary secretary to the local government board +", ""),
  ("^-attorney", "attorney"),
  ("^mr attorney-?general", "attorney-general"),
  ("^she attorney", "attorney"),
  ("^attorney-?general sir [a-z ]+", "attorney-general"),
  (" + - +", "-"),
  ("^.+ viscount", "viscount"),
  ("^.+ sir ", "sir "),
  ("^.+ mr ", "mr ")
]

/-- `IGNORE_KEYWORDS` (every entry in the source is commented out). -/
def IGNORE_KEYWORDS : List String := []

/-- `IGNORE_PREFIXES` from the source. -/
def IGNORE_PREFIXES : List String := ["mrs ", "miss ", "a ", "an "]

/-- `is_ignored` (worker.py lines 449-458): labels of fewer than 35
characters are ignored when they contain an ignore keyword or start with an
ignore prefix; longer labels are never ignored here. -/
def is_ignored (target : String) : Bool :=
  if target.length < 35 then
    IGNORE_KEYWORDS.any (fun kw => strContains target kw)
      || IGNORE_PREFIXES.any (fun kw => strStartsWith target kw)
  else false

/-- `postprocess` (worker.py lines 589-592): apply every post-correction in
list order, then strip surrounding whitespace. -/
def postprocess (s : String) : String :=
  pyStrip (REGEX_POST_CORRECTIONS.foldl (fun acc kv => reSub kv.1 kv.2 acc) s)

/-- Collapse whitespace runs to single spaces (`prev` = previous output
character was a space). -/
def collapseWs : Bool → List Char → List Char
  | _, [] => []
  | prev, c :: rest =>
    if c.isWhitespace then
      if prev then collapseWs true rest else ' ' :: collapseWs true rest
    else c :: collapseWs false rest

/-- Modelled from the spec: `cleanse_string` lives in `hansard/__init__.py`,
which is not under src/.  Per spec §4.1 step 3 it is "a fixed general
cleansing function (case-folding, punctuation/whitespace normalization)";
we model it as lowercasing, collapsing whitespace runs, and stripping. -/
def cleanse_string (s : String) : String :=
  pyStrip ⟨collapseWs false (s.toList.map Char.toLower)⟩

/-- Worker lines 607-608: literal replacement of every misspelling in
dictionary order. -/
def applyMisspellings (corr : List (String × String)) (s : String) : String :=
  corr.foldl (fun acc kv => strReplace acc kv.1 kv.2) s

/-- `preprocess` (worker.py lines 594-610): if the label has a parenthesized
segment whose cleansed text is an alias-dictionary key, return that;
otherwise strip parenthesized segments, cleanse, substitute misspellings,
re-cleanse, and post-correct. -/
def preprocessWith (corr : List (String × String)) (aliasKeys : List String)
    (s : String) : String :=
  let general :=
    let s1 : String := ⟨removeParens (s.length + 1) s.toList⟩
    postprocess (cleanse_string (applyMisspellings corr (cleanse_string s1)))
  match findParen s.toList with
  | some inner =>
    let innerStr := postprocess (cleanse_string (String.mk inner))
    if aliasKeys.contains innerStr then innerStr else general
  | none => general

/-- Worker line 801: `re.sub(r'\b[a-z]\b', '', target)` — remove bare
single-letter words (initials). -/
def stripInitials (s : String) : String :=
  reSub "\\b[a-z]\\b" "" s

/-- Worker line 803: `re.sub(r'  +', ' ', target)` — collapse multiple
spaces left by initial-stripping. -/
def collapseSpaces (s : String) : String :=
  reSub "  +" " " s

end Hansard

namespace Hansard

/-! ## Distance metrics

`util/edit_distance.py` is not under src/; spec §4.3 specifies "bounded
edit distance predicates at three thresholds (≤1, ≤2, ≤4)".  We implement
the standard Levenshtein distance (dynamic-programming rows, so concrete
evaluation is cheap) and the three thresholds.  The third Boolean argument
of the source predicates is kept for signature fidelity but is unused
here. -/

/-- One DP row step of Levenshtein distance for subject character `x`. -/
def levRowGo (x : Char) : List Char → List Nat → Nat → List Nat
  | [], _, _ => []
  | y :: ys, old, dn =>
    match old with
    | [] => []
    | o0 :: rest =>
      let o1 := rest.headD 0
      let v := min (o0 + (if x = y then 0 else 1)) (min (o1 + 1) (dn + 1))
      v :: levRowGo x ys rest v

/-- Modelled from the spec: Levenshtein edit distance (insertions,
deletions, substitutions each cost 1). -/
def levenshtein (xs ys : List Char) : Nat :=
  (xs.foldl
    (fun row x =>
      let h := row.headD 0 + 1
      h :: levRowGo x ys row h)
    (List.range (ys.length + 1))).getLastD 0

/-- Modelled from the spec: `is_distance_one` from util/edit_distance.py. -/
def is_distance_one (a b : String) (_flag : Bool) : Bool :=
  levenshtein a.toList b.toList ≤ 1

/-- Modelled from the spec: `within_distance_two` from util/edit_distance.py. -/
def within_distance_two (a b : String) (_flag : Bool) : Bool :=
  levenshtein a.toList b.toList ≤ 2

/-- Modelled from the spec: `within_distance_four` from util/edit_distance.py. -/
def within_distance_four (a b : String) (_flag : Bool) : Bool :=
  levenshtein a.toList b.toList ≤ 4

/-! ## Data model

`hansard/speaker.py` and `hansard/loader.py` are not under src/, so
`SpeakerReplacement`, `Office` and `DataStruct` are modelled from the spec
(§3 SpeakerRecord / OfficeHolding / AliasEntry): a speaker has a numeric
member id, a string id used in the output, service start/end dates, a date
of birth, generated edit-distance alias strings, and office intervals.
Dates are integers.  A `corresponding_id` of `none` models the unresolved
sentinel (NaN / "N/A"). -/

structure SpeakerReplacement : Type where
  member_id : Nat
  id : String
  start_date : Int
  end_date : Int
  dob : Int
  edit_dist_aliases : List String
  office_intervals : List (Int × Int)
deriving DecidableEq

/-- Modelled from the spec (§4.4 step 4): `SpeakerReplacement.matches`
filters the alias-dictionary candidates to those whose own birth/service
window is compatible with the date. -/
def SpeakerReplacement.matchesOn (s : SpeakerReplacement) (d : Int) : Bool :=
  decide (s.start_date ≤ d) && decide (d ≤ s.end_date)

/-- Modelled from the spec (§4.4 step 7b): age in years at a date. -/
def SpeakerReplacement.age_at (s : SpeakerReplacement) (d : Int) : Int :=
  (d - s.dob).tdiv 365

/-- Modelled from the spec (§4.4 step 7b): holding a recognized office or
seat at the date. -/
def SpeakerReplacement.is_in_office (s : SpeakerReplacement) (d : Int) : Bool :=
  s.office_intervals.any (fun p => decide (p.1 ≤ d) && decide (d ≤ p.2))

/-- A row of `lord_titles_df` / `aliases_df`: half-open search window, the
`alias` column (named `aliasText` here because `alias` is a Lean keyword),
and the corresponding id (none = the NaN sentinel). -/
structure RefRow : Type where
  start_search : Int
  end_search : Int
  aliasText : String
  corresponding_id : Option Nat
deriving DecidableEq

/-- A row of `holdings_df`. -/
structure HoldRow : Type where
  start_search : Int
  end_search : Int
  office_id : Nat
  corresponding_id : Option Nat
deriving DecidableEq

/-- Modelled from the spec: `Office` from hansard/speaker.py — an id and
alias strings. -/
structure Office : Type where
  id : Nat
  aliases : List String
deriving DecidableEq

/-- The value stored in `match` in the worker: either a
`SpeakerReplacement`, a raw alias string (the edit-distance stage stores
the alias when the corresponding id is the NaN sentinel), or a raw integer
id (the disambiguation fallback stores the id itself when it is absent
from the registry). -/
inductive MVal : Type
  | sp (s : SpeakerReplacement)
  | st (a : String)
  | iv (n : Int)
deriving DecidableEq

/-- Python truthiness of a `match` value: `None` is falsy (handled by
`Option`), a speaker object is truthy, a string is truthy iff nonempty, an
int is truthy iff nonzero. -/
def mvalTruthy : MVal → Bool
  | .sp _ => true
  | .st a => !a.isEmpty
  | .iv n => decide (n ≠ 0)

def truthyO : Option MVal → Bool
  | none => false
  | some v => mvalTruthy v

/-- `worker_function`'s view of `DataStruct` (hansard/loader.py is not
under src/; the fields and their shapes are taken from the worker's uses
and spec §6).  `disambiguate` (hansard/disambiguate.py, also not under
src/) is modelled from spec §4.4 step 8 as an external routine returning a
speaker id or the sentinel `-1`. -/
structure Data : Type where
  corrections : List (String × String)
  alias_dict : List (String × List SpeakerReplacement)
  speakers : List SpeakerReplacement
  speaker_dict : List (Nat × SpeakerReplacement)
  lord_titles_df : List RefRow
  aliases_df : List RefRow
  holdings_df : List HoldRow
  offices : List Office
  inferences : List (Nat × Nat)
  ignored_set : List String
  disambiguate : String → Int → Int → Nat → Int

/-- An input row: speech date, raw speaker label, debate id, house. -/
structure Row : Type where
  speechdate : Int
  speaker : String
  debate_id : Nat
  speaker_house : Int
deriving DecidableEq

/-- The value emitted into the `suggested_speaker` column. -/
inductive OutVal : Type
  | str (s : String)
  | int (n : Int)
deriving DecidableEq

/-- The per-row output columns the worker fills in. -/
structure RowOut : Type where
  suggested : Option OutVal
  ambiguous : Bool
  fuzzy : Bool
  ignored : Bool
deriving DecidableEq

/-- The four cache tables plus the fuzzy-flag cache (worker lines
565-569).  Python dict assignment is modelled by prepending, so `alookup`
sees the latest binding. -/
structure CacheState : Type where
  matchC : List ((String × Int) × MVal)
  missC : List (String × Int)
  ambigC : List ((String × Int) × Option String)
  ignoredC : List String
  fuzzyC : List (String × Int)
deriving DecidableEq

def emptyCaches : CacheState := ⟨[], [], [], [], []⟩

/-- Lookup-failure exceptions that can escape the worker: `KeyError` from
an unguarded `speaker_dict[...]` access, `AttributeError` from
`speaker.member_id` on a string. -/
inductive Err : Type
  | keyError
  | attrError
deriving DecidableEq

/-- Unguarded Python `speaker_dict[n]`. -/
def lookupThrow (sd : List (Nat × SpeakerReplacement)) (n : Nat) :
    Except Err SpeakerReplacement :=
  match alookup sd n with
  | some s => .ok s
  | none => .error .keyError

/-- `preprocess` closed over the worker's data (line 622 applies it to the
raw speaker column). -/
def preprocessData (data : Data) (s : String) : String :=
  preprocessWith data.corrections (data.alias_dict.map Prod.fst) s

/-- `match_term` (worker.py lines 461-462): the rows of `df` whose search
window contains `date`. -/
def match_term (df : List RefRow) (date : Int) : List RefRow :=
  df.filter (fun r => decide (date ≥ r.start_search) && decide (date < r.end_search))

/-- Worker lines 673-678: interval-filtered lord/viscount/earl alias rows
whose alias contains the target as a substring. -/
def lordTitleQuery (df : List RefRow) (target : String) (d : Int) : List RefRow :=
  df.filter (fun r =>
    decide (d ≥ r.start_search) && decide (d < r.end_search) && strContains r.aliasText target)

/-- Worker lines 680-685: same query against the name-alias table. -/
def nameAliasQuery (df : List RefRow) (target : String) (d : Int) : List RefRow :=
  df.filter (fun r =>
    decide (d ≥ r.start_search) && decide (d < r.end_search) && strContains r.aliasText target)

/-- Worker lines 716-719: interval-filtered holdings of one office. -/
def holdingsQueryEq (df : List HoldRow) (oid : Nat) (d : Int) : List HoldRow :=
  df.filter (fun h =>
    decide (d ≥ h.start_search) && decide (d < h.end_search) && decide (oid = h.office_id))

/-- Worker lines 780-783: interval-filtered holdings of any office in the
fuzzy-matched id list. -/
def holdingsQueryIn (df : List HoldRow) (oids : List Nat) (d : Int) : List HoldRow :=
  df.filter (fun h =>
    decide (d ≥ h.start_search) && decide (d < h.end_search) && decide (h.office_id ∈ oids))

/-- Worker line 475-476 (inside `match_edit_distance_df`): the
interval-filtered rows scanned by the edit-distance search. -/
def editQuery (df : List RefRow) (d : Int) : List RefRow :=
  df.filter (fun r => decide (d ≥ r.start_search) && decide (d < r.end_search))

/-- Worker lines 706-713 with the source's self-assignment bug kept: the
exact branch `target in office.aliases` sets `office_id = office.id` and
breaks; the substring branch executes `office_id = office_id`, a no-op, so
it can never set the id. -/
def findOfficeId (offices : List Office) (target : String) : Option Nat :=
  go offices none
where
  go : List Office → Option Nat → Option Nat
    | [], acc => acc
    | o :: rest, acc =>
      if o.aliases.contains target then some o.id
      else go rest acc

/-- Modelled from the spec ("queried by exact, substring, and fuzzy alias
containment"): the intended version of the lookup above, in which the
substring branch assigns the matching office's id. -/
def findOfficeIdIntended (offices : List Office) (target : String) : Option Nat :=
  go offices none
where
  go : List Office → Option Nat → Option Nat
    | [], acc => acc
    | o :: rest, acc =>
      if o.aliases.contains target then some o.id
      else if o.aliases.any (fun al => strContains target al) then go rest (some o.id)
      else go rest acc

end Hansard

namespace Hansard

/-! ## The cascade (worker.py lines 612-880)

The per-row mutable state `match` / `ambiguity` / `possibles` /
`fuzzy_flag` is threaded explicitly; unguarded `speaker_dict[...]`
accesses are modelled in `Except Err`.  The guards reproduce Python
truthiness (`if not match:` etc.) via `truthyO`. -/

/-- The worker's per-row mutable state while the cascade runs. -/
structure CState : Type where
  mtch : Option MVal
  ambiguity : Bool
  possibles : List MVal
  fuzzy : Bool
deriving DecidableEq

/-- Worker lines 721-738 applied to the deduplicated corresponding ids of
`query`: a single non-sentinel id resolves through the registry (a failed
lookup is caught: `match = None`, `ambiguity = False`); a single sentinel
id changes nothing; two or more distinct ids set `ambiguity`. -/
def resolveExact (sd : List (Nat × SpeakerReplacement)) (ids : List (Option Nat))
    (st : CState) : CState :=
  match ids with
  | [some n] =>
    match alookup sd n with
    | some s => {st with mtch := some (.sp s)}
    | none => {st with mtch := none, ambiguity := false}
  | [none] => st
  | [] => st
  | _ :: _ :: _ => {st with ambiguity := true}

/-- Worker lines 657-738 (the exact/substring stage): the lord-title
query, then the name-alias query if it was empty, then the office lookup
(with the source's `office_id = office_id` no-op), then resolution of the
deduplicated ids. -/
def exactStage (data : Data) (d : Int) (t : String) (st : CState) : CState :=
  if truthyO st.mtch then st
  else
    let q1 := (lordTitleQuery data.lord_titles_df t d).map RefRow.corresponding_id
    let q2 := if q1.isEmpty then (nameAliasQuery data.aliases_df t d).map RefRow.corresponding_id else []
    let oid := if q1.isEmpty && q2.isEmpty then findOfficeId data.offices t else none
    let q3 := match oid with
      | some o => if o ≠ 0 then (holdingsQueryEq data.holdings_df o d).map HoldRow.corresponding_id else []
      | none => []
    let qids := if !q1.isEmpty then q1 else if !q2.isEmpty then q2 else q3
    resolveExact data.speaker_dict (dedupKeepFirst qids) st

/-- Worker lines 740-750: verbatim alias-dictionary lookup, filtered by the
speaker's own date window. -/
def aliasStage (data : Data) (d : Int) (t : String) (st : CState) : CState :=
  if truthyO st.mtch then st
  else
    match alookup data.alias_dict t with
    | some ps =>
      let ps2 := ps.filter (fun s => s.matchesOn d)
      match ps2 with
      | [s] => {st with mtch := some (.sp s), ambiguity := false, possibles := [MVal.sp s]}
      | _ => {st with ambiguity := true, possibles := ps2.map MVal.sp}
    | none => {st with possibles := []}

/-- Worker lines 465-500 (`match_edit_distance_df` body): scan the
interval-filtered rows; a hit on a truthy current `match` moves it into the
ambiguity list (the sentinel id stores the alias string itself, a non-
sentinel id is resolved through the registry unguarded); the scan stops
after five ambiguous hits; `corrVal` (below) is the value a hit
contributes — the alias string itself when the corresponding id is the
NaN sentinel, otherwise the *unguarded* registry lookup of the id. -/
def corrVal (sd : List (Nat × SpeakerReplacement)) (r : RefRow) : Except Err MVal :=
  match r.corresponding_id with
  | none => .ok (.st r.aliasText)
  | some n => Except.map MVal.sp (lookupThrow sd n)

def medGo (sd : List (Nat × SpeakerReplacement)) (f : String → String → Bool → Bool)
    (target : String) :
    List RefRow → Option MVal → Bool → List MVal → Nat →
    Except Err (Option MVal × Bool × List MVal)
  | [], m, a, ps, _ => .ok (m, a, ps)
  | r :: rest, m, a, ps, maxP =>
    if f target r.aliasText false then
      if truthyO m then do
        let am ← corrVal sd r
        let maxP2 := maxP - 1
        let ps2 := ps ++ [am]
        if maxP2 = 0 then .ok (none, true, ps2)
        else medGo sd f target rest none true ps2 maxP2
      else do
        let m2 ← corrVal sd r
        medGo sd f target rest (some m2) a ps maxP
    else medGo sd f target rest m a ps maxP

/-- `match_edit_distance_df` (worker.py lines 465-500). -/
def match_edit_distance_df (f : String → String → Bool → Bool) (target : String)
    (d : Int) (df : List RefRow) (sd : List (Nat × SpeakerReplacement)) :
    Except Err (Option MVal × Bool × List MVal) :=
  medGo sd f target (editQuery df d) none false [] 5

/-- Worker lines 753-757: edit distance against the lord-title table; the
three-part result overwrites `match`, `ambiguity` and `possibles`, and a
truthy match raises the fuzzy flag. -/
def editLordStage (data : Data) (d : Int) (t : String) (st : CState) : Except Err CState :=
  if !truthyO st.mtch && !st.ambiguity then do
    let (m, a, ps) ← match_edit_distance_df within_distance_two t d data.lord_titles_df data.speaker_dict
    pure ⟨m, a, ps, st.fuzzy || truthyO m⟩
  else pure st

/-- Worker lines 772-796: offices whose alias is within edit distance four
of the label; a single holding row resolves through the registry with an
*unguarded* `speaker_dict[int(match)]` (KeyError escapes), a sentinel id
resets the match, several rows set ambiguity. -/
def officeFuzzyStage (data : Data) (d : Int) (t : String) (st : CState) : Except Err CState :=
  if !truthyO st.mtch && !st.ambiguity then
    let oids := data.offices.foldl (fun acc o =>
      acc ++ o.aliases.filterMap (fun al => if within_distance_four al t false then some o.id else none)) []
    if !oids.isEmpty then
      match (holdingsQueryIn data.holdings_df oids d).map HoldRow.corresponding_id with
      | [some n] => do
        let s ← lookupThrow data.speaker_dict n
        pure {st with mtch := some (.sp s), fuzzy := true}
      | [none] => pure {st with mtch := none, ambiguity := false}
      | [] => pure st
      | _ :: _ :: _ => pure {st with mtch := none, ambiguity := true}
    else pure st
  else pure st

/-- Worker lines 582-587: `edit_distance_dict`, built with
`setdefault(alias, []).append(member_id)` in speaker order. -/
def eddAdd : List (String × List Nat) → String → Nat → List (String × List Nat)
  | [], al, i => [(al, [i])]
  | (k, v) :: rest, al, i =>
    if k = al then (k, v ++ [i]) :: rest else (k, v) :: eddAdd rest al i

def buildEDD (speakers : List SpeakerReplacement) : List (String × List Nat) :=
  speakers.foldl (fun acc s =>
    s.edit_dist_aliases.foldl (fun acc2 al => eddAdd acc2 al s.member_id) acc) []

/-- Worker lines 810-814 (inner loop): append the speakers behind the ids
of one matching alias whose service window contains the date;
`speaker_dict[speaker_id]` is unguarded. -/
def permInner (data : Data) (d : Int) : List Nat → List MVal → Except Err (List MVal)
  | [], acc => .ok acc
  | i :: is, acc => do
    let s ← lookupThrow data.speaker_dict i
    if s.start_date ≤ d ∧ d ≤ s.end_date then permInner data d is (acc ++ [MVal.sp s])
    else permInner data d is acc

/-- Worker lines 806-814 (outer loop over `edit_distance_dict`). -/
def permOuter (data : Data) (d : Int) (t2 : String) :
    List (String × List Nat) → List MVal → Except Err (List MVal)
  | [], acc => .ok acc
  | kv :: rest, acc =>
    if within_distance_two t2 kv.1 false then do
      let acc2 ← permInner data d kv.2 acc
      permOuter data d t2 rest acc2
    else permOuter data d t2 rest acc

/-- Worker lines 805-814: collect the speakers behind every generated
alias within edit distance two of the (initial-stripped) label whose
service window contains the date. -/
def permCollect (data : Data) (d : Int) (t2 : String) : Except Err (List MVal) :=
  permOuter data d t2 (buildEDD data.speakers) []

/-- Worker lines 798-820: the name-permutation fuzzy stage (the label
rewrite itself happens in `cascade`, which passes the rewritten `t2`). -/
def permStage (data : Data) (d : Int) (permNeeded : Bool) (t2 : String)
    (st : CState) : Except Err CState :=
  if permNeeded then do
    let ps ← permCollect data d t2
    let fz := st.fuzzy || !ps.isEmpty
    match ps with
    | [m] => pure {st with mtch := some m, ambiguity := false, possibles := ps, fuzzy := fz}
    | [] => pure {st with possibles := [], fuzzy := fz}
    | _ => pure {st with ambiguity := true, possibles := ps, fuzzy := fz}
  else pure st

/-- Worker lines 822-828: inference-hint tie-break. -/
def inferStage (data : Data) (deb : Nat) (st : CState) : CState :=
  if st.ambiguity && !st.possibles.isEmpty then
    match (alookup data.inferences deb).bind (alookup data.speaker_dict) with
    | some s =>
      if st.possibles.contains (MVal.sp s) then
        {st with mtch := some (.sp s), ambiguity := false, possibles := []}
      else {st with mtch := none}
    | none => {st with mtch := none}
  else st

/-- Python `speaker.member_id` on a possibles entry; raises
`AttributeError` when the entry is a raw string. -/
def mvalMemberId : MVal → Except Err Nat
  | .sp s => .ok s.member_id
  | _ => .error .attrError

/-- Worker lines 830-844: deduplicate the candidates by member id (the
Python `set` iteration is modelled in first-occurrence order), drop
candidates younger than 20 or out of office, and resolve a unique
survivor. -/
def narrowFilter (data : Data) (d : Int) : List Nat → List MVal → Except Err (List MVal)
  | [], acc => .ok acc
  | i :: is, acc => do
    let s ← lookupThrow data.speaker_dict i
    if s.age_at d < 20 then narrowFilter data d is acc
    else if s.is_in_office d then narrowFilter data d is (acc ++ [MVal.sp s])
    else narrowFilter data d is acc

/-- Worker lines 830-844 (see the doc comment above `narrowFilter`). -/
def narrowStage (data : Data) (d : Int) (st : CState) : Except Err CState :=
  if st.ambiguity && !st.possibles.isEmpty then do
    let ids0 ← st.possibles.mapM mvalMemberId
    let ps ← narrowFilter data d (dedupKeepFirst ids0) []
    match ps with
    | [m] => pure {st with ambiguity := false, mtch := some m, possibles := ps}
    | _ => pure {st with possibles := ps}
  else pure st

/-- Python `speaker_dict.get(i)` with an integer key. -/
def lookupInt (sd : List (Nat × SpeakerReplacement)) (i : Int) : Option SpeakerReplacement :=
  if i < 0 then none else alookup sd i.toNat

/-- Worker lines 846-852: the external disambiguation fallback;
`speaker_dict.get(match, match)` keeps the raw id when it is not
registered. -/
def disambStage (data : Data) (t2 : String) (d : Int) (house : Int) (deb : Nat)
    (st : CState) : CState :=
  if st.ambiguity then
    let r := data.disambiguate t2 d house deb
    if r = -1 then {st with mtch := none}
    else
      {st with ambiguity := false,
               mtch := some (match lookupInt data.speaker_dict r with
                             | some s => MVal.sp s
                             | none => MVal.iv r)}
  else st

/-- The cascade's result: the final per-row state, the final (possibly
initial-stripped) label used as the cache key, and whether the
name-permutation stage ran (and hence rewrote the label). -/
structure CascadeRes : Type where
  mtch : Option MVal
  ambiguity : Bool
  possibles : List MVal
  fuzzy : Bool
  finalTarget : String
  permRan : Bool
deriving DecidableEq

/-- Worker lines 652-852 for one row, starting from the match-cache probe
result `m0`: every stage in source order.  Lines 799-803 rewrite the label
in place before the permutation stage; the rewritten label is what the
final caching uses. -/
def cascade (data : Data) (row : Row) (m0 : Option MVal) (t : String) :
    Except Err CascadeRes := do
  let d := row.speechdate
  let st1 := exactStage data d t ⟨m0, false, [], false⟩
  let st2 := aliasStage data d t st1
  let st3 ← editLordStage data d t st2
  let st4 ← officeFuzzyStage data d t st3
  let permNeeded := !truthyO st4.mtch && !st4.ambiguity
  let t2 := if permNeeded then collapseSpaces (stripInitials t) else t
  let st5 ← permStage data d permNeeded t2 st4
  let st6 := inferStage data row.debate_id st5
  let st7 ← narrowStage data d st6
  let st8 := disambStage data t2 d row.speaker_house row.debate_id st7
  pure ⟨st8.mtch, st8.ambiguity, st8.possibles, st8.fuzzy, t2, permNeeded⟩

/-- Worker lines 856-859: the value written to `suggested_speaker`. -/
def emitOut : MVal → OutVal
  | .sp s => .str s.id
  | .st a => .str a
  | .iv n => .int n

/-- Worker line 865: `speaker.id if isinstance(speaker, SpeakerReplacement)
else speaker` (an `MVal.iv` never reaches this point; Python would raise in
`join`). -/
def mvalJoinStr : MVal → String
  | .sp s => s.id
  | .st a => a
  | .iv n => toString n

/-- Worker lines 854-877: emit the row's columns and populate exactly one
cache.  On the ambiguous-with-no-candidates path the output column is left
at its initialized value — the preprocessed label `t` — while the cache
stores `None`; `fuzzy_matched` is overwritten by `fuzzy_flag` on the match
and ambiguity paths but not on the miss path. -/
def finalize (S : CacheState) (t : String) (d : Int) (fuzzyHit : Bool)
    (res : CascadeRes) : RowOut × CacheState :=
  match res.mtch with
  | some v =>
    (⟨some (emitOut v), false, res.fuzzy, false⟩,
     {S with matchC := ((res.finalTarget, d), v) :: S.matchC})
  | none =>
    if res.ambiguity then
      match (res.possibles.filter mvalTruthy).map mvalJoinStr with
      | [] =>
        (⟨some (.str t), true, res.fuzzy, false⟩,
         {S with ambigC := ((res.finalTarget, d), none) :: S.ambigC})
      | p :: ps =>
        let j := joinBar (p :: ps)
        (⟨some (.str j), true, res.fuzzy, false⟩,
         {S with ambigC := ((res.finalTarget, d), some j) :: S.ambigC})
    else
      (⟨none, false, fuzzyHit, false⟩,
       {S with missC := (res.finalTarget, d) :: S.missC})

/-- Worker line 658: `is_ignored(target) or target in data.ignored_set`. -/
def ignorable (data : Data) (t : String) : Bool :=
  is_ignored t || data.ignored_set.contains t

/-- One row of the worker loop (lines 627-877): the fuzzy-flag probe, the
three short-circuiting cache probes, the match-cache probe, the ignore
check, then the cascade and finalization. -/
def processRow (data : Data) (S : CacheState) (row : Row) :
    Except Err (RowOut × CacheState) :=
  let t := preprocessData data row.speaker
  let d := row.speechdate
  let fuzzyHit := S.fuzzyC.contains (t, d)
  if S.missC.contains (t, d) then
    .ok (⟨none, false, fuzzyHit, false⟩, S)
  else
    match alookup S.ambigC (t, d) with
    | some v => .ok (⟨v.map OutVal.str, true, fuzzyHit, false⟩, S)
    | none =>
      if S.ignoredC.contains t then
        .ok (⟨none, false, fuzzyHit, true⟩, S)
      else
        let m0 := alookup S.matchC (t, d)
        if !truthyO m0 && ignorable data t then
          .ok (⟨none, false, fuzzyHit, true⟩, {S with ignoredC := t :: S.ignoredC})
        else do
          let res ← cascade data row m0 t
          .ok (finalize S t d fuzzyHit res)

/-- A whole batch, threading the caches; an uncaught exception aborts the
worker, modelled by the `Except` short-circuit. -/
def processChunk (data : Data) : List Row → CacheState → Except Err (List RowOut × CacheState)
  | [], S => .ok ([], S)
  | r :: rs, S => do
    let (o, S2) ← processRow data S r
    let (os, S3) ← processChunk data rs S2
    pure (o :: os, S3)

/-- The four terminal classifications of spec §4.4. -/
inductive Class : Type
  | ma
  | mi
  | am
  | ig
deriving DecidableEq

/-- The classification the caches record for a pair, in probe order. -/
def RClass (S : CacheState) (t : String) (d : Int) : Option Class :=
  if S.missC.contains (t, d) then some .mi
  else
    match alookup S.ambigC (t, d) with
    | some _ => some .am
    | none =>
      if S.ignoredC.contains t then some .ig
      else if (alookup S.matchC (t, d)).isSome then some .ma
      else none

/-- The classification carried by an emitted row. -/
def classOf (o : RowOut) : Class :=
  if o.ignored then .ig
  else if o.ambiguous then .am
  else if o.suggested.isSome then .ma
  else .mi

/-- No cache knows the pair: every probe on it misses. -/
def freshPair (S : CacheState) (t : String) (d : Int) : Prop :=
  RClass S t d = none

end Hansard

namespace Hansard

/-! ## Invariants, well-formedness, and concrete scenarios -/

/-- The four cache tables are mutually exclusive for a pair, in probe
order (the ignore cache is keyed by label alone). -/
def MutEx (S : CacheState) : Prop :=
  ∀ t d,
    ((t, d) ∈ S.missC →
      alookup S.ambigC (t, d) = none ∧ t ∉ S.ignoredC ∧ alookup S.matchC (t, d) = none)
    ∧ ((alookup S.ambigC (t, d)).isSome = true →
      t ∉ S.ignoredC ∧ alookup S.matchC (t, d) = none)
    ∧ (t ∈ S.ignoredC → alookup S.matchC (t, d) = none)

/-- The internal cache invariant the worker maintains when no label is
rewritten by the permutation stage: mutual exclusion, labels recorded in
match/miss/ambiguity are never ignorable, ignored labels are ignorable,
and every cached match value is Python-truthy. -/
structure Inv (data : Data) (S : CacheState) : Prop where
  mutex : MutEx S
  keysOk : ∀ t d,
    ((t, d) ∈ S.missC ∨ (alookup S.ambigC (t, d)).isSome = true ∨
      (alookup S.matchC (t, d)).isSome = true) → ignorable data t = false
  ignOk : ∀ t ∈ S.ignoredC, ignorable data t = true
  truthyOk : ∀ t d v, alookup S.matchC (t, d) = some v → mvalTruthy v = true

/-- Well-formed reference data: alias strings in the lord-title table are
nonempty, and the external disambiguator answers `-1` or a registered
speaker id. -/
def WFData (data : Data) : Prop :=
  (∀ r ∈ data.lord_titles_df, r.aliasText.isEmpty = false)
  ∧ (∀ t d h deb, data.disambiguate t d h deb = -1 ∨
      (lookupInt data.speaker_dict (data.disambiguate t d h deb)).isSome = true)

/-- The permutation-stage label rewrite leaves this row's normalized label
unchanged (the label has no bare single-letter word). -/
def rowStrip (data : Data) (row : Row) : Prop :=
  collapseSpaces (stripInitials (preprocessData data row.speaker)) =
    preprocessData data row.speaker

/-- The normalized (label, date) pair of a row. -/
def rowPair (data : Data) (row : Row) : String × Int :=
  (preprocessData data row.speaker, row.speechdate)

/-- `normalize` of spec §4.1 and §8: the full preprocessing pipeline for a
worker whose misspelling dictionary and alias dictionary are empty. -/
def normalizeEmpty (s : String) : String :=
  preprocessWith [] [] s

/-- Representative tested inputs for the normalizer (spec §8 uses
"mr smith" and "mrs jones"; the rest are typical normalized labels). -/
def testedInputs : List String :=
  ["mr smith", "mrs jones", "viscount palmerston", "lord john russell",
   "sir robert peel", "speaker", "chairman"]

/-! Concrete scenario data.  `spkA`, `spkB` are registered speakers;
`dataStrip` exhibits the permutation-stage label rewrite interacting with
the caches; `dataFuzzy` a fuzzy lord-title match; `dataOffice` an office
holding whose corresponding id is unregistered; `dataSentinel` a lord-title
row with the NaN sentinel; `dataPerm` an ambiguous permutation-stage pair
of underage speakers; `dataAmbig` an exact-stage two-candidate ambiguity. -/

def spkA : SpeakerReplacement := ⟨1, "S1", 0, 100, -10000, [], [(0, 100)]⟩

def spkB : SpeakerReplacement := ⟨2, "S2", 0, 100, -10000, [], [(0, 100)]⟩

def spkY1 : SpeakerReplacement := ⟨10, "S10", 0, 100, 40, ["walpole"], [(0, 100)]⟩

def spkY2 : SpeakerReplacement := ⟨11, "S11", 0, 100, 40, ["walpole"], [(0, 100)]⟩

def dataStrip : Data :=
  ⟨[], [], [spkA], [(1, spkA)], [⟨0, 100, "lord smith qq of york", some 1⟩],
   [], [], [], [], [], fun _ _ _ _ => -1⟩

def rowStripA : Row := ⟨50, "smith qq", 7, 0⟩

def rowStripB : Row := ⟨50, "smith j qq", 7, 0⟩

def dataFuzzy : Data :=
  ⟨[], [], [spkB], [(2, spkB)], [⟨0, 100, "viscount melbourne", some 2⟩],
   [], [], [], [], [], fun _ _ _ _ => -1⟩

def rowFuzzy : Row := ⟨50, "viscount melbovrne", 7, 0⟩

def dataOffice : Data :=
  ⟨[], [], [spkB], [(2, spkB)], [], [], [⟨0, 100, 3, some 99⟩],
   [⟨3, ["board of trade"]⟩], [], [], fun _ _ _ _ => -1⟩

def rowOffice : Row := ⟨50, "board of trqde", 7, 0⟩

def dataSentinel : Data :=
  ⟨[], [], [], [], [⟨0, 100, "lord abc", none⟩], [], [], [], [], [],
   fun _ _ _ _ => -1⟩

def rowSentinel : Row := ⟨50, "lord abd", 7, 0⟩

def dataPerm : Data :=
  ⟨[], [], [spkY1, spkY2], [(10, spkY1), (11, spkY2)], [], [], [], [], [], [],
   fun _ _ _ _ => -1⟩

def rowPerm : Row := ⟨50, "walpole q", 7, 0⟩

def dataAmbig : Data :=
  ⟨[], [], [], [], [⟨0, 100, "lord aa bb", some 1⟩, ⟨0, 100, "lord aa bb cc", some 2⟩],
   [], [], [], [], [], fun _ _ _ _ => -1⟩

def rowAmbig : Row := ⟨50, "lord aa", 7, 0⟩

/-- Offices for the substring-lookup scenario. -/
def officesSub : List Office := [⟨5, ["chancellor of the exchequer"]⟩]

def targetSub : String := "chancellor of the exchequer x"

def runStrip : Except Err (List RowOut × CacheState) :=
  processChunk dataStrip [rowStripA, rowStripB] emptyCaches

def stateStrip : CacheState := (runStrip.toOption.map Prod.snd).getD emptyCaches

def runStrip3 : Except Err (List RowOut × CacheState) :=
  processChunk dataStrip [rowStripA, rowStripB, rowStripA] emptyCaches

def outsStrip3 : List RowOut := (runStrip3.toOption.map Prod.fst).getD []

def runFuzzy : Except Err (List RowOut × CacheState) :=
  processChunk dataFuzzy [rowFuzzy, rowFuzzy] emptyCaches

def outsFuzzy : List RowOut := (runFuzzy.toOption.map Prod.fst).getD []

def runSentinel : Except Err (List RowOut × CacheState) :=
  processChunk dataSentinel [rowSentinel] emptyCaches

def outsSentinel : List RowOut := (runSentinel.toOption.map Prod.fst).getD []

def stateSentinel : CacheState := (runSentinel.toOption.map Prod.snd).getD emptyCaches

def runPerm : Except Err (List RowOut × CacheState) :=
  processChunk dataPerm [rowPerm, rowPerm] emptyCaches

def outsPerm : List RowOut := (runPerm.toOption.map Prod.fst).getD []

def statePerm : CacheState := (runPerm.toOption.map Prod.snd).getD emptyCaches

end Hansard

namespace Hansard

def stateFuzzy : CacheState := (runFuzzy.toOption.map Prod.snd).getD emptyCaches

/-- The run observed crashing with a `KeyError`. -/
def isKeyError {α : Type} : Except Err α → Bool
  | .error .keyError => true
  | _ => false

end Hansard

namespace Hansard

instance freshPairDec (S : CacheState) (t : String) (d : Int) :
    Decidable (freshPair S t d) :=
  inferInstanceAs (Decidable (RClass S t d = none))

instance rowStripDec (data : Data) (row : Row) : Decidable (rowStrip data row) :=
  inferInstanceAs (Decidable (_ = _))

/-- The cascade result of the first `rowPerm` row (checked by evaluation in
the corresponding witness). -/
def resPermVal : CascadeRes := ⟨none, true, [], true, "walpole ", true⟩

/-- The emitted row and cache state after the first `rowPerm` row. -/
def outPermVal : RowOut := ⟨some (.str "walpole q"), true, true, false⟩

def statePermVal : CacheState := ⟨[], [], [(("walpole ", 50), none)], [], []⟩

/-- The cascade result of the `rowAmbig` row (exact-stage two-candidate
ambiguity with an empty possibles list). -/
def resAmbigVal : CascadeRes := ⟨none, true, [], false, "lord aa", false⟩

end Hansard

namespace Hansard

/-- The outputs of `processChunk dataFuzzy [rowFuzzy, rowFuzzy]` (checked by
evaluation in the corresponding witnesses). -/
def outsF2val : List RowOut :=
  [⟨some (.str "S2"), false, true, false⟩, ⟨some (.str "S2"), false, false, false⟩]

/-- The final cache state of `processChunk dataFuzzy [rowFuzzy, rowFuzzy]`. -/
def stateF2val : CacheState :=
  ⟨[(("viscount melbovrne", 50), .sp spkB), (("viscount melbovrne", 50), .sp spkB)],
   [], [], [], []⟩

end Hansard

deriving instance DecidableEq for Except

namespace Hansard

set_option maxRecDepth 100000
set_option maxHeartbeats 4000000

/-- C1: every reference-table lookup of the cascade keeps exactly the rows
whose half-open validity window contains the query date (together with the
query's own substring/office condition), and for a row with window
`[S, E)` (`S < E`) the query at `S` includes the row while the query at
`E` excludes it. -/
theorem temporal_window_correct :
    (∀ (df : List RefRow) (d : Int) (r : RefRow),
      r ∈ match_term df d ↔ r ∈ df ∧ r.start_search ≤ d ∧ d < r.end_search)
    ∧ (∀ (df : List RefRow) (t : String) (d : Int) (r : RefRow),
      r ∈ lordTitleQuery df t d ↔
        r ∈ df ∧ r.start_search ≤ d ∧ d < r.end_search ∧ strContains r.aliasText t = true)
    ∧ (∀ (df : List RefRow) (t : String) (d : Int) (r : RefRow),
      r ∈ nameAliasQuery df t d ↔
        r ∈ df ∧ r.start_search ≤ d ∧ d < r.end_search ∧ strContains r.aliasText t = true)
    ∧ (∀ (df : List HoldRow) (oid : Nat) (d : Int) (h : HoldRow),
      h ∈ holdingsQueryEq df oid d ↔
        h ∈ df ∧ h.start_search ≤ d ∧ d < h.end_search ∧ oid = h.office_id)
    ∧ (∀ (df : List HoldRow) (oids : List Nat) (d : Int) (h : HoldRow),
      h ∈ holdingsQueryIn df oids d ↔
        h ∈ df ∧ h.start_search ≤ d ∧ d < h.end_search ∧ h.office_id ∈ oids)
    ∧ (∀ (df : List RefRow) (d : Int) (r : RefRow),
      r ∈ editQuery df d ↔ r ∈ df ∧ r.start_search ≤ d ∧ d < r.end_search)
    ∧ (∀ (df : List RefRow) (r : RefRow), r ∈ df → r.start_search < r.end_search →
      r ∈ match_term df r.start_search ∧ r ∉ match_term df r.end_search) := by
  refine ⟨?_, ?_, ?_, ?_, ?_, ?_, ?_⟩
  · intro df d r
    simp [match_term, List.mem_filter, ge_iff_le, and_assoc]
  · intro df t d r
    simp [lordTitleQuery, List.mem_filter, ge_iff_le, and_assoc]
  · intro df t d r
    simp [nameAliasQuery, List.mem_filter, ge_iff_le, and_assoc]
  · intro df oid d h
    simp [holdingsQueryEq, List.mem_filter, ge_iff_le, and_assoc]
  · intro df oids d h
    simp [holdingsQueryIn, List.mem_filter, ge_iff_le, and_assoc]
  · intro df d r
    simp [editQuery, List.mem_filter, ge_iff_le, and_assoc]
  · intro df r hr hlt
    constructor
    · simp only [match_term, List.mem_filter, Bool.and_eq_true, decide_eq_true_eq, ge_iff_le]
      exact ⟨hr, le_refl _, hlt⟩
    · simp only [match_term, List.mem_filter, Bool.and_eq_true, decide_eq_true_eq, ge_iff_le]
      intro h
      exact absurd h.2.2 (lt_irrefl _)

/-- C1 witness: the boundary behavior at a concrete row and table. -/
theorem temporal_window_correct_witness :
    (⟨0, 10, "a", none⟩ : RefRow) ∈ match_term [⟨0, 10, "a", none⟩] 0
    ∧ (⟨0, 10, "a", none⟩ : RefRow) ∉ match_term [⟨0, 10, "a", none⟩] 10 :=
  temporal_window_correct.2.2.2.2.2.2 [⟨0, 10, "a", none⟩] ⟨0, 10, "a", none⟩
    (by decide) (by decide)

/-- C2 counterexample: the full preprocessing pipeline is not idempotent —
`normalize("he he smith") = "he smith"` (the `^he +` → `the ` rule fires
once and `^the +` deletes it), but a second pass turns `"he smith"` into
`"smith"`. -/
theorem normalize_idempotent_cex :
    normalizeEmpty "he he smith" = "he smith"
    ∧ normalizeEmpty (normalizeEmpty "he he smith") = "smith"
    ∧ normalizeEmpty (normalizeEmpty "he he smith") ≠ normalizeEmpty "he he smith" := by
  refine ⟨by decide, by decide, by decide⟩

/-- C2 amended: normalization is idempotent on the tested inputs (the
spec's §8 scenario labels and typical normalized labels), though not for
every string. -/
theorem normalize_idempotent_tested :
    testedInputs.all
      (fun x => decide (normalizeEmpty (normalizeEmpty x) = normalizeEmpty x)) = true := by
  decide

/-- C4: the office-holdings fuzzy stage resolves its candidate id with an
unguarded `speaker_dict[int(match)]` (worker line 788); a holdings row
whose corresponding id is absent from the registry raises `KeyError`,
aborting the whole batch instead of downgrading the row to a miss. -/
theorem registry_gap_aborts_batch :
    isKeyError (processChunk dataOffice [rowOffice] emptyCaches) = true := by decide

/-- C5 counterexample: a lord-title row carrying the NaN sentinel id is
returned as a Matched outcome by the edit-distance stage — the row's alias
string itself becomes the match, is emitted as `suggested_speaker`, and is
stored in the match cache. -/
theorem sentinel_matched_cex :
    match_edit_distance_df within_distance_two "lord abd" 50
        dataSentinel.lord_titles_df [] = .ok (some (.st "lord abc"), false, [])
    ∧ runSentinel.isOk = true
    ∧ outsSentinel.map (fun o => (o.suggested, o.ambiguous))
      = [(some (.str "lord abc"), false)]
    ∧ alookup stateSentinel.matchC ("lord abd", 50) = some (.st "lord abc") := by
  refine ⟨by decide, by decide, by decide, by decide⟩

/-- C5 amended: in the exact/substring stage (worker lines 721-738) a
sentinel row is indeed never resolved as a match — a match can only come
from a single non-sentinel id found in the registry (sentinel rows do
still count toward the ambiguity cardinality, and the edit-distance stages
return the sentinel row's alias as a match, per the counterexample). -/
theorem exact_stage_sentinel_never_matched
    (sd : List (Nat × SpeakerReplacement)) (ids : List (Option Nat)) (st : CState)
    (hm : st.mtch = none) (v : MVal)
    (hv : (resolveExact sd ids st).mtch = some v) :
    ∃ n s, ids = [some n] ∧ alookup sd n = some s ∧ v = .sp s := by
  match ids with
  | [] => simp [resolveExact, hm] at hv
  | [some n] =>
    cases hsd : alookup sd n with
    | some s =>
      refine ⟨n, s, rfl, hsd, ?_⟩
      simp [resolveExact, hsd] at hv
      exact hv.symm
    | none => simp [resolveExact, hsd, hm] at hv
  | [none] => simp [resolveExact, hm] at hv
  | a :: b :: rest => simp [resolveExact, hm] at hv

/-- C5 amended witness: the guarantee instantiated at a concrete id
list. -/
theorem exact_stage_sentinel_never_matched_witness :
    ∃ n s, ([some 1] : List (Option Nat)) = [some n]
      ∧ alookup [(1, spkA)] n = some s ∧ MVal.sp spkA = .sp s :=
  exact_stage_sentinel_never_matched [(1, spkA)] [some 1] ⟨none, false, [], false⟩
    rfl (.sp spkA) (by decide)

/-- C6: with the source's `office_id = office_id` no-op (worker line 712),
an office alias occurring strictly inside the label never sets the office
id, so the holdings table is not queried — while the intended assignment
(per the spec: exact, substring, and fuzzy alias containment) selects the
office. -/
theorem office_substring_lookup_noop :
    strContains targetSub "chancellor of the exchequer" = true
    ∧ officesSub.all (fun o => !o.aliases.contains targetSub) = true
    ∧ findOfficeId officesSub targetSub = none
    ∧ findOfficeIdIntended officesSub targetSub = some 5 := by
  refine ⟨by decide, by decide, by decide, by decide⟩

/-- C7: the fuzzy-flag cache is declared and probed but never populated
(no `FUZZY_CACHE.add` exists in the worker), so a pair first resolved by
fuzzy matching is emitted with `fuzzy_matched = 1` once and `0` on its
repeat, which is served from the match cache. -/
theorem fuzzy_flag_not_preserved :
    runFuzzy.isOk = true
    ∧ outsFuzzy.map (fun o => (o.suggested, o.fuzzy))
      = [(some (.str "S2"), true), (some (.str "S2"), false)]
    ∧ stateFuzzy.fuzzyC = [] := by
  refine ⟨by decide, by decide, by decide⟩

/-- C3 counterexample: the permutation stage rewrites "smith j qq" to
"smith qq" before caching, so after the second row the pair
("smith qq", 50) sits in the miss cache *and* in the match cache (where the
first row put it): the four tables are not mutually exclusive. -/
theorem cache_exclusivity_cex :
    runStrip.isOk = true
    ∧ ("smith qq", (50 : Int)) ∈ stateStrip.missC
    ∧ (alookup stateStrip.matchC ("smith qq", 50)).isSome = true
    ∧ RClass stateStrip "smith j qq" 50 = none := by
  refine ⟨by decide, by decide, by decide, by decide⟩

/-- C8 counterexample: the same normalized pair ("smith qq", 50) is
classified Matched on its first occurrence and Miss on its third (the
second row's rewritten label planted a miss-cache entry under the first
row's key), so repeated runs are not classified identically. -/
theorem determinism_cex :
    runStrip3.isOk = true
    ∧ rowPair dataStrip rowStripA = ("smith qq", 50)
    ∧ outsStrip3.map classOf = [.ma, .mi, .mi] := by
  refine ⟨by decide, by decide, by decide⟩

/-- C9 counterexample: an ambiguous-empty outcome reached through the
permutation stage caches under the *stripped* key ("walpole ", 50), so the
second occurrence of ("walpole q", 50) misses every cache, re-runs the
cascade, and is emitted with the label again — not with a null
suggested_speaker. -/
theorem ambig_empty_repeat_cex :
    runPerm.isOk = true
    ∧ outsPerm.map (fun o => (o.suggested, o.ambiguous))
      = [(some (.str "walpole q"), true), (some (.str "walpole q"), true)]
    ∧ alookup statePerm.ambigC ("walpole ", 50) = some none
    ∧ alookup statePerm.ambigC ("walpole q", 50) = none := by
  refine ⟨by decide, by decide, by decide, by decide⟩

end Hansard

namespace Hansard

/-! ## Structural lemmas about the cache probes and the cascade -/

theorem alookup_cons {α β : Type} [DecidableEq α] (k : α) (v : β)
    (l : List (α × β)) (key : α) :
    alookup ((k, v) :: l) key = if k = key then some v else alookup l key := rfl

theorem freshPair_iff (S : CacheState) (t : String) (d : Int) :
    freshPair S t d ↔
      S.missC.contains (t, d) = false ∧ alookup S.ambigC (t, d) = none
      ∧ S.ignoredC.contains t = false ∧ alookup S.matchC (t, d) = none := by
  unfold freshPair RClass
  cases hb1 : S.missC.contains (t, d)
  · cases hb2 : alookup S.ambigC (t, d)
    · cases hb3 : S.ignoredC.contains t
      · cases hb4 : alookup S.matchC (t, d) <;> simp [hb1, hb2, hb3, hb4]
      · simp [hb1, hb2, hb3]
    · simp [hb1, hb2]
  · simp [hb1]

theorem exactStage_skip (data : Data) (d : Int) (t : String) (st : CState)
    (h : truthyO st.mtch = true) : exactStage data d t st = st := by
  simp [exactStage, h]

theorem aliasStage_skip (data : Data) (d : Int) (t : String) (st : CState)
    (h : truthyO st.mtch = true) : aliasStage data d t st = st := by
  simp [aliasStage, h]

theorem editLordStage_skip (data : Data) (d : Int) (t : String) (st : CState)
    (h : truthyO st.mtch = true) : editLordStage data d t st = .ok st := by
  simp [editLordStage, h, pure, Except.pure]

theorem officeFuzzyStage_skip (data : Data) (d : Int) (t : String) (st : CState)
    (h : truthyO st.mtch = true) : officeFuzzyStage data d t st = .ok st := by
  simp [officeFuzzyStage, h, pure, Except.pure]

theorem permStage_skip (data : Data) (d : Int) (t2 : String) (st : CState) :
    permStage data d false t2 st = .ok st := by
  simp [permStage, pure, Except.pure]

theorem inferStage_skip (data : Data) (deb : Nat) (st : CState)
    (h : st.ambiguity = false) : inferStage data deb st = st := by
  simp [inferStage, h]

theorem narrowStage_skip (data : Data) (d : Int) (st : CState)
    (h : st.ambiguity = false) : narrowStage data d st = .ok st := by
  simp [narrowStage, h, pure, Except.pure]

theorem disambStage_skip (data : Data) (t2 : String) (d : Int) (house : Int)
    (deb : Nat) (st : CState) (h : st.ambiguity = false) :
    disambStage data t2 d house deb st = st := by
  simp [disambStage, h]

/-- A truthy cached match short-circuits every stage: the cascade returns
the cached value unchanged, does not strip the label, and leaves the fuzzy
flag clear. -/
theorem cascade_cached (data : Data) (row : Row) (t : String) (v : MVal)
    (hv : mvalTruthy v = true) :
    cascade data row (some v) t = .ok ⟨some v, false, [], false, t, false⟩ := by
  have h1 : truthyO (some v) = true := hv
  have e1 := exactStage_skip data row.speechdate t ⟨some v, false, [], false⟩ h1
  have e2 := aliasStage_skip data row.speechdate t ⟨some v, false, [], false⟩ h1
  have e3 := editLordStage_skip data row.speechdate t ⟨some v, false, [], false⟩ h1
  have e4 := officeFuzzyStage_skip data row.speechdate t ⟨some v, false, [], false⟩ h1
  have e6 := inferStage_skip data row.debate_id ⟨some v, false, [], false⟩ rfl
  have e7 := narrowStage_skip data row.speechdate ⟨some v, false, [], false⟩ rfl
  simp [cascade, e1, e2, e3, e4, e6, e7, permStage_skip, disambStage_skip, h1,
    bind, Except.bind, pure, Except.pure]

/-- The cascade's cache key: the label itself unless the permutation stage
ran, in which case the initial-stripped label. -/
theorem cascade_finalTarget (data : Data) (row : Row) (m0 : Option MVal)
    (t : String) (res : CascadeRes) (h : cascade data row m0 t = .ok res) :
    res.finalTarget = (if res.permRan then collapseSpaces (stripInitials t) else t)
    ∧ (res.permRan = false → res.finalTarget = t) := by
  unfold cascade at h
  simp only [bind, Except.bind, pure, Except.pure] at h
  repeat' split at h
  all_goals cases h
  all_goals simp_all
  all_goals rw [if_neg (by rintro ⟨ha, hb⟩; simp_all)]

end Hansard

namespace Hansard

/-! ## Truthiness of cascade match values (needed for the cache invariant) -/

theorem corrVal_truthy (sd : List (Nat × SpeakerReplacement)) (r : RefRow)
    (hr : r.aliasText.isEmpty = false) (v : MVal) (h : corrVal sd r = .ok v) :
    mvalTruthy v = true := by
  cases hc : r.corresponding_id with
  | none =>
    simp only [corrVal, hc] at h
    cases h
    simp [mvalTruthy, hr]
  | some n =>
    simp only [corrVal, hc, Except.map, lookupThrow] at h
    cases ha : alookup sd n with
    | none => rw [ha] at h; cases h
    | some s => rw [ha] at h; cases h; rfl

theorem exactStage_TON (data : Data) (d : Int) (t : String) (st : CState)
    (hst : ∀ w, st.mtch = some w → mvalTruthy w = true) :
    ∀ w, (exactStage data d t st).mtch = some w → mvalTruthy w = true := by
  intro w hw
  simp only [exactStage, resolveExact] at hw
  repeat' split at hw
  all_goals first
    | exact hst w hw
    | (cases hw; rfl)
    | cases hw

theorem aliasStage_TON (data : Data) (d : Int) (t : String) (st : CState)
    (hst : ∀ w, st.mtch = some w → mvalTruthy w = true) :
    ∀ w, (aliasStage data d t st).mtch = some w → mvalTruthy w = true := by
  intro w hw
  simp only [aliasStage] at hw
  repeat' split at hw
  all_goals first
    | exact hst w hw
    | (cases hw; rfl)

theorem medGo_TON (sd : List (Nat × SpeakerReplacement))
    (f : String → String → Bool → Bool) (target : String) :
    ∀ (rows : List RefRow) (m : Option MVal) (a : Bool) (ps : List MVal)
      (maxP : Nat) (out : Option MVal × Bool × List MVal),
      (∀ r ∈ rows, r.aliasText.isEmpty = false) →
      (∀ w, m = some w → mvalTruthy w = true) →
      medGo sd f target rows m a ps maxP = .ok out →
      ∀ w, out.1 = some w → mvalTruthy w = true := by
  intro rows
  induction rows with
  | nil =>
    intro m a ps maxP out _ hm h
    unfold medGo at h
    cases h
    exact hm
  | cons r rest ih =>
    intro m a ps maxP out hrows hm h
    unfold medGo at h
    split at h
    · split at h
      · cases hcv : corrVal sd r with
        | error e => simp only [bind, Except.bind, hcv] at h; cases h
        | ok am =>
          simp only [bind, Except.bind, hcv] at h
          split at h
          · cases h; intro w hw; cases hw
          · exact ih _ _ _ _ _ (fun r2 h2 => hrows r2 (List.mem_cons_of_mem _ h2))
              (fun w hw => by cases hw) h
      · cases hcv : corrVal sd r with
        | error e => simp only [bind, Except.bind, hcv] at h; cases h
        | ok m2 =>
          simp only [bind, Except.bind, hcv] at h
          have hm2 : mvalTruthy m2 = true :=
            corrVal_truthy sd r (hrows r (List.mem_cons_self _ _)) m2 hcv
          exact ih _ _ _ _ _ (fun r2 h2 => hrows r2 (List.mem_cons_of_mem _ h2))
            (fun w hw => by cases hw; exact hm2) h
    · exact ih _ _ _ _ _ (fun r2 h2 => hrows r2 (List.mem_cons_of_mem _ h2)) hm h

theorem editLordStage_TON (data : Data) (d : Int) (t : String) (st st2 : CState)
    (hlord : ∀ r ∈ data.lord_titles_df, r.aliasText.isEmpty = false)
    (hst : ∀ w, st.mtch = some w → mvalTruthy w = true)
    (h : editLordStage data d t st = .ok st2) :
    ∀ w, st2.mtch = some w → mvalTruthy w = true := by
  unfold editLordStage at h
  split at h
  · simp only [bind, Except.bind, match_edit_distance_df] at h
    cases hmed : medGo data.speaker_dict within_distance_two t
        (editQuery data.lord_titles_df d) none false [] 5 with
    | error e => rw [hmed] at h; cases h
    | ok out =>
      rw [hmed] at h
      have hq : ∀ r ∈ editQuery data.lord_titles_df d, r.aliasText.isEmpty = false := by
        intro r hr
        exact hlord r (List.mem_filter.mp hr).1
      have hton := medGo_TON data.speaker_dict within_distance_two t
        (editQuery data.lord_titles_df d) none false [] 5 out hq
        (fun w hw => by cases hw) hmed
      cases h
      intro w hw
      exact hton w hw
  · cases h
    exact hst

theorem officeFuzzyStage_TON (data : Data) (d : Int) (t : String) (st st2 : CState)
    (hst : ∀ w, st.mtch = some w → mvalTruthy w = true)
    (h : officeFuzzyStage data d t st = .ok st2) :
    ∀ w, st2.mtch = some w → mvalTruthy w = true := by
  unfold officeFuzzyStage lookupThrow at h
  simp only [bind, Except.bind, pure, Except.pure] at h
  repeat' split at h
  all_goals cases h
  all_goals first
    | exact hst
    | (intro w hw; cases hw; rfl)
    | (intro w hw; cases hw)

end Hansard

namespace Hansard

theorem permInner_sp (data : Data) (d : Int) :
    ∀ (is : List Nat) (acc out : List MVal),
      permInner data d is acc = .ok out →
      ∀ x ∈ out, x ∈ acc ∨ ∃ s, x = MVal.sp s := by
  intro is
  induction is with
  | nil =>
    intro acc out h x hx
    unfold permInner at h
    cases h
    exact Or.inl hx
  | cons i rest ih =>
    intro acc out h x hx
    unfold permInner lookupThrow at h
    cases ha : alookup data.speaker_dict i with
    | none => simp only [bind, Except.bind, ha] at h; cases h
    | some s =>
      simp only [bind, Except.bind, ha] at h
      split at h
      · rcases ih _ _ h x hx with hin | hsp
        · rcases List.mem_append.mp hin with hin2 | hin2
          · exact Or.inl hin2
          · exact Or.inr ⟨s, List.mem_singleton.mp hin2⟩
        · exact Or.inr hsp
      · exact ih _ _ h x hx

theorem permOuter_sp (data : Data) (d : Int) (t2 : String) :
    ∀ (kvs : List (String × List Nat)) (acc out : List MVal),
      permOuter data d t2 kvs acc = .ok out →
      ∀ x ∈ out, x ∈ acc ∨ ∃ s, x = MVal.sp s := by
  intro kvs
  induction kvs with
  | nil =>
    intro acc out h x hx
    unfold permOuter at h
    cases h
    exact Or.inl hx
  | cons kv rest ih =>
    intro acc out h x hx
    unfold permOuter at h
    split at h
    · cases hin : permInner data d kv.2 acc with
      | error e => simp only [bind, Except.bind, hin] at h; cases h
      | ok acc2 =>
        simp only [bind, Except.bind, hin] at h
        rcases ih _ _ h x hx with hin2 | hsp
        · exact permInner_sp data d kv.2 acc acc2 hin x hin2
        · exact Or.inr hsp
    · exact ih _ _ h x hx

theorem permStage_TON (data : Data) (d : Int) (pn : Bool) (t2 : String)
    (st st2 : CState)
    (hst : ∀ w, st.mtch = some w → mvalTruthy w = true)
    (h : permStage data d pn t2 st = .ok st2) :
    ∀ w, st2.mtch = some w → mvalTruthy w = true := by
  unfold permStage at h
  split at h
  · cases hpc : permOuter data d t2 (buildEDD data.speakers) [] with
    | error e => simp only [bind, Except.bind, permCollect, hpc] at h; cases h
    | ok ps =>
      simp only [bind, Except.bind, pure, Except.pure, permCollect, hpc] at h
      have hall : ∀ x ∈ ps, ∃ s, x = MVal.sp s := by
        intro x hx
        rcases permOuter_sp data d t2 (buildEDD data.speakers) [] ps hpc x hx with hin | hsp
        · cases hin
        · exact hsp
      cases ps with
      | nil => cases h; exact hst
      | cons p rest =>
        cases rest with
        | nil =>
          cases h
          intro w hw
          injection hw with hw2
          subst hw2
          rcases hall p (List.mem_singleton.mpr rfl) with ⟨s, hs⟩
          rw [hs]
          rfl
        | cons q rest2 => cases h; exact hst
  · cases h
    exact hst

theorem inferStage_TON (data : Data) (deb : Nat) (st : CState)
    (hst : ∀ w, st.mtch = some w → mvalTruthy w = true) :
    ∀ w, (inferStage data deb st).mtch = some w → mvalTruthy w = true := by
  intro w hw
  simp only [inferStage] at hw
  repeat' split at hw
  all_goals first
    | exact hst w hw
    | (cases hw; rfl)
    | cases hw

theorem narrowFilter_sp (data : Data) (d : Int) :
    ∀ (is : List Nat) (acc out : List MVal),
      narrowFilter data d is acc = .ok out →
      ∀ x ∈ out, x ∈ acc ∨ ∃ s, x = MVal.sp s := by
  intro is
  induction is with
  | nil =>
    intro acc out h x hx
    unfold narrowFilter at h
    cases h
    exact Or.inl hx
  | cons i rest ih =>
    intro acc out h x hx
    unfold narrowFilter lookupThrow at h
    cases ha : alookup data.speaker_dict i with
    | none => simp only [bind, Except.bind, ha] at h; cases h
    | some s =>
      simp only [bind, Except.bind, ha] at h
      split at h
      · exact ih _ _ h x hx
      · split at h
        · rcases ih _ _ h x hx with hin | hsp
          · rcases List.mem_append.mp hin with hin2 | hin2
            · exact Or.inl hin2
            · exact Or.inr ⟨s, List.mem_singleton.mp hin2⟩
          · exact Or.inr hsp
        · exact ih _ _ h x hx

theorem narrowStage_TON (data : Data) (d : Int) (st st2 : CState)
    (hst : ∀ w, st.mtch = some w → mvalTruthy w = true)
    (h : narrowStage data d st = .ok st2) :
    ∀ w, st2.mtch = some w → mvalTruthy w = true := by
  unfold narrowStage at h
  split at h
  · cases hmm : st.possibles.mapM mvalMemberId with
    | error e => simp only [bind, Except.bind, hmm] at h; cases h
    | ok ids0 =>
      cases hnf : narrowFilter data d (dedupKeepFirst ids0) [] with
      | error e => simp only [bind, Except.bind, hmm, hnf] at h; cases h
      | ok ps =>
        simp only [bind, Except.bind, pure, Except.pure, hmm, hnf] at h
        have hall : ∀ x ∈ ps, ∃ s, x = MVal.sp s := by
          intro x hx
          rcases narrowFilter_sp data d (dedupKeepFirst ids0) [] ps hnf x hx with hin | hsp
          · cases hin
          · exact hsp
        cases ps with
        | nil => cases h; exact hst
        | cons p rest =>
          cases rest with
          | nil =>
            cases h
            intro w hw
            injection hw with hw2
            subst hw2
            rcases hall p (List.mem_singleton.mpr rfl) with ⟨s, hs⟩
            rw [hs]
            rfl
          | cons q rest2 => cases h; exact hst
  · cases h
    exact hst

theorem disambStage_TON (data : Data) (t2 : String) (d : Int) (house : Int)
    (deb : Nat) (st : CState)
    (hwf : ∀ t d h deb, data.disambiguate t d h deb = -1 ∨
      (lookupInt data.speaker_dict (data.disambiguate t d h deb)).isSome = true)
    (hst : ∀ w, st.mtch = some w → mvalTruthy w = true) :
    ∀ w, (disambStage data t2 d house deb st).mtch = some w → mvalTruthy w = true := by
  intro w hw
  simp only [disambStage] at hw
  split at hw
  · split at hw
    · cases hw
    · rename_i hne
      rcases hwf t2 d house deb with hm1 | hm2
      · exact absurd hm1 hne
      · split at hw
        · cases hw; rfl
        · rename_i hnone
          rw [hnone] at hm2
          cases hm2
  · exact hst w hw

/-- A fresh cascade run only ever produces a Python-truthy match value,
given well-formed reference data. -/
theorem cascade_TON (data : Data) (row : Row) (t : String) (res : CascadeRes)
    (hwf : WFData data) (h : cascade data row none t = .ok res) :
    ∀ w, res.mtch = some w → mvalTruthy w = true := by
  unfold cascade at h
  have h0 : ∀ w : MVal, (none : Option MVal) = some w → mvalTruthy w = true := by
    intro w hw
    cases hw
  have h1 := exactStage_TON data row.speechdate t ⟨none, false, [], false⟩ h0
  have h2 := aliasStage_TON data row.speechdate t _ h1
  cases h3 : editLordStage data row.speechdate t
      (aliasStage data row.speechdate t
        (exactStage data row.speechdate t ⟨none, false, [], false⟩)) with
  | error e => simp only [bind, Except.bind, h3] at h; cases h
  | ok st3 =>
    simp only [bind, Except.bind, h3] at h
    have h3t := editLordStage_TON data row.speechdate t _ st3 hwf.1 h2 h3
    cases h4 : officeFuzzyStage data row.speechdate t st3 with
    | error e => simp only [bind, Except.bind, h4] at h; cases h
    | ok st4 =>
      simp only [bind, Except.bind, h4] at h
      have h4t := officeFuzzyStage_TON data row.speechdate t st3 st4 h3t h4
      cases h5 : permStage data row.speechdate (!truthyO st4.mtch && !st4.ambiguity)
          (if (!truthyO st4.mtch && !st4.ambiguity) = true then
            collapseSpaces (stripInitials t) else t) st4 with
      | error e => simp only [bind, Except.bind, h5] at h; cases h
      | ok st5 =>
        simp only [bind, Except.bind, h5] at h
        have h5t := permStage_TON data row.speechdate _ _ st4 st5 h4t h5
        have h6t := inferStage_TON data row.debate_id st5 h5t
        cases h7 : narrowStage data row.speechdate (inferStage data row.debate_id st5) with
        | error e => simp only [bind, Except.bind, h7] at h; cases h
        | ok st7 =>
          simp only [bind, Except.bind, pure, Except.pure, h7] at h
          have h7t := narrowStage_TON data row.speechdate _ st7 h6t h7
          have h8t := disambStage_TON data
            (if (!truthyO st4.mtch && !st4.ambiguity) = true then
              collapseSpaces (stripInitials t) else t)
            row.speechdate row.speaker_house row.debate_id st7 hwf.2 h7t
          cases h
          intro w hw
          exact h8t w hw

end Hansard


namespace Hansard

theorem mem_iff_contains {α : Type} [BEq α] [LawfulBEq α] (l : List α) (x : α) :
    l.contains x = true ↔ x ∈ l := List.elem_iff

theorem contains_cons_ne {α : Type} [BEq α] [LawfulBEq α] (a x : α) (l : List α)
    (hne : x ≠ a) : (a :: l).contains x = l.contains x := by
  simp [List.contains_cons, hne]

/-- One worker row preserves the cache invariant, records the row's pair
with the row's classification, keeps previously recorded pairs intact, and
classifies a recorded pair exactly as recorded. -/
theorem processRow_step (data : Data) (S : CacheState) (row : Row)
    (out : RowOut) (S2 : CacheState)
    (hwf : WFData data) (hstrip : rowStrip data row) (hinv : Inv data S)
    (h : processRow data S row = .ok (out, S2)) :
    Inv data S2
    ∧ RClass S2 (preprocessData data row.speaker) row.speechdate = some (classOf out)
    ∧ (∀ p : String × Int, ∀ c, RClass S p.1 p.2 = some c → RClass S2 p.1 p.2 = some c)
    ∧ (∀ c, RClass S (preprocessData data row.speaker) row.speechdate = some c →
        classOf out = c) := by
  simp only [processRow] at h
  split at h
  · -- miss-cache hit
    rename_i hb0
    have hb1 : (preprocessData data row.speaker, row.speechdate) ∈ S.missC := by
      simpa using hb0
    cases h
    refine ⟨hinv, ?_, ?_, ?_⟩
    · simp [RClass, classOf, hb1]
    · intro p c hp
      exact hp
    · intro c hc
      simp [RClass, hb1] at hc
      subst hc
      simp [classOf]
  · rename_i hb0
    have hb1 : (preprocessData data row.speaker, row.speechdate) ∉ S.missC := by
      simpa using hb0
    split at h
    · -- ambiguity-cache hit
      rename_i v heq
      cases h
      refine ⟨hinv, ?_, ?_, ?_⟩
      · simp [RClass, classOf, hb1, heq]
      · intro p c hp
        exact hp
      · intro c hc
        simp [RClass, hb1, heq] at hc
        subst hc
        simp [classOf]
    · rename_i heq
      split at h
      · -- ignored-cache hit
        rename_i hb3z
        have hb3 : preprocessData data row.speaker ∈ S.ignoredC := by
          simpa using hb3z
        cases h
        refine ⟨hinv, ?_, ?_, ?_⟩
        · simp [RClass, classOf, hb1, heq, hb3]
        · intro p c hp
          exact hp
        · intro c hc
          simp [RClass, hb1, heq, hb3] at hc
          subst hc
          simp [classOf]
      · rename_i hb3z
        have hb3 : preprocessData data row.speaker ∉ S.ignoredC := by
          simpa using hb3z
        split at h
        · -- fresh ignorable label
          rename_i hb4
          rw [Bool.and_eq_true] at hb4
          have hign : ignorable data (preprocessData data row.speaker) = true := hb4.2
          have hm0 : alookup S.matchC (preprocessData data row.speaker, row.speechdate) = none := by
            cases hm : alookup S.matchC (preprocessData data row.speaker, row.speechdate) with
            | none => rfl
            | some v =>
              have := hinv.truthyOk _ _ v hm
              rw [hm] at hb4
              simp [truthyO, this] at hb4
          cases h
          refine ⟨?_, ?_, ?_, ?_⟩
          · refine ⟨?_, ?_, ?_, ?_⟩
            · intro t' d'
              refine ⟨?_, ?_, ?_⟩
              · intro hmem
                have ho := (hinv.mutex t' d').1 hmem
                have hko : ignorable data t' = false := hinv.keysOk t' d' (Or.inl hmem)
                refine ⟨ho.1, ?_, ho.2.2⟩
                intro hmem2
                rcases List.mem_cons.mp hmem2 with hEq | hold
                · rw [hEq] at hko
                  rw [hko] at hign
                  cases hign
                · exact ho.2.1 hold
              · intro hsome
                have ho := (hinv.mutex t' d').2.1 hsome
                have hko : ignorable data t' = false :=
                  hinv.keysOk t' d' (Or.inr (Or.inl hsome))
                refine ⟨?_, ho.2⟩
                intro hmem2
                rcases List.mem_cons.mp hmem2 with hEq | hold
                · rw [hEq] at hko
                  rw [hko] at hign
                  cases hign
                · exact ho.1 hold
              · intro hmem2
                rcases List.mem_cons.mp hmem2 with hEq | hold
                · subst hEq
                  show alookup S.matchC (preprocessData data row.speaker, d') = none
                  cases hm : alookup S.matchC (preprocessData data row.speaker, d') with
                  | none => rfl
                  | some v =>
                    have hko := hinv.keysOk (preprocessData data row.speaker) d'
                      (Or.inr (Or.inr (by rw [hm]; rfl)))
                    rw [hko] at hign
                    cases hign
                · exact (hinv.mutex t' d').2.2 hold
            · intro t' d' hk
              exact hinv.keysOk t' d' hk
            · intro t' hmem2
              rcases List.mem_cons.mp hmem2 with hEq | hold
              · rw [hEq]
                exact hign
              · exact hinv.ignOk t' hold
            · intro t' d' v hm
              exact hinv.truthyOk t' d' v hm
          · simp [RClass, classOf, hb1, heq]
          · intro p c hp
            by_cases hpt : p.1 = preprocessData data row.speaker
            · exfalso
              revert hp
              simp only [RClass]
              split
              · rename_i hmm
                rw [mem_iff_contains] at hmm
                have hko := hinv.keysOk p.1 p.2 (Or.inl hmm)
                rw [hpt, hign] at hko
                cases hko
              · split
                · rename_i w hw
                  have hko := hinv.keysOk p.1 p.2 (Or.inr (Or.inl (by rw [hw]; rfl)))
                  rw [hpt, hign] at hko
                  cases hko
                · split
                  · rename_i hig
                    rw [mem_iff_contains] at hig
                    rw [hpt] at hig
                    exact absurd hig hb3
                  · split
                    · rename_i hmt
                      have hko := hinv.keysOk p.1 p.2 (Or.inr (Or.inr hmt))
                      rw [hpt, hign] at hko
                      cases hko
                    · intro hcon
                      cases hcon
            · have hcc : (preprocessData data row.speaker :: S.ignoredC).contains p.1
                  = S.ignoredC.contains p.1 := contains_cons_ne _ _ _ hpt
              simp only [RClass, hcc] at hp ⊢
              exact hp
          · intro c hc
            simp [RClass, hb1, heq, hb3, hm0] at hc
        · -- cascade
          rename_i hb4z
          have hb4 : (!truthyO (alookup S.matchC (preprocessData data row.speaker, row.speechdate))
              && ignorable data (preprocessData data row.speaker)) = false := by
            simpa using hb4z
          cases hc : cascade data row
              (alookup S.matchC (preprocessData data row.speaker, row.speechdate))
              (preprocessData data row.speaker) with
          | error e =>
            simp only [bind, Except.bind, hc] at h
            cases h
          | ok res =>
            simp only [bind, Except.bind, hc] at h
            cases hm0 : alookup S.matchC (preprocessData data row.speaker, row.speechdate) with
            | some v =>
              rw [hm0] at hc
              have hv := hinv.truthyOk _ _ v hm0
              rw [cascade_cached data row (preprocessData data row.speaker) v hv] at hc
              injection hc with hres
              rw [← hres] at h
              cases h
              have hrc2 : RClass
                  { S with matchC := ((preprocessData data row.speaker, row.speechdate), v)
                      :: S.matchC }
                  (preprocessData data row.speaker) row.speechdate = some Class.ma := by
                simp [RClass, hb1, heq, hb3, alookup]
              refine ⟨?_, ?_, ?_, ?_⟩
              · refine ⟨?_, ?_, ?_, ?_⟩
                · intro t' d'
                  refine ⟨?_, ?_, ?_⟩
                  · intro hmem
                    have ho := (hinv.mutex t' d').1 hmem
                    refine ⟨ho.1, ho.2.1, ?_⟩
                    show alookup (((preprocessData data row.speaker, row.speechdate), v)
                        :: S.matchC) (t', d') = none
                    rw [alookup_cons]
                    rw [if_neg ?_]
                    · exact ho.2.2
                    · intro hee
                      rw [hee] at hb1
                      exact hb1 hmem
                  · intro hsome
                    have ho := (hinv.mutex t' d').2.1 hsome
                    refine ⟨ho.1, ?_⟩
                    show alookup (((preprocessData data row.speaker, row.speechdate), v)
                        :: S.matchC) (t', d') = none
                    rw [alookup_cons]
                    rw [if_neg ?_]
                    · exact ho.2
                    · intro hee
                      rw [hee] at heq
                      rw [heq] at hsome
                      cases hsome
                  · intro hmem
                    show alookup (((preprocessData data row.speaker, row.speechdate), v)
                        :: S.matchC) (t', d') = none
                    rw [alookup_cons]
                    rw [if_neg ?_]
                    · exact (hinv.mutex t' d').2.2 hmem
                    · intro hee
                      have : t' = preprocessData data row.speaker := by
                        have := congrArg Prod.fst hee
                        exact this.symm
                      rw [this] at hmem
                      exact hb3 hmem
                · intro t' d' hk
                  rcases hk with hk1 | hk2 | hk3
                  · exact hinv.keysOk t' d' (Or.inl hk1)
                  · exact hinv.keysOk t' d' (Or.inr (Or.inl hk2))
                  · by_cases hee : ((preprocessData data row.speaker, row.speechdate)
                        : String × Int) = (t', d')
                    · have ht' : t' = preprocessData data row.speaker := by
                        have := congrArg Prod.fst hee
                        exact this.symm
                      rw [ht']
                      exact hinv.keysOk _ _ (Or.inr (Or.inr (by rw [hm0]; rfl)))
                    · rw [show ({ S with matchC := ((preprocessData data row.speaker,
                          row.speechdate), v) :: S.matchC } : CacheState).matchC
                          = ((preprocessData data row.speaker, row.speechdate), v)
                            :: S.matchC from rfl, alookup_cons, if_neg hee] at hk3
                      exact hinv.keysOk t' d' (Or.inr (Or.inr hk3))
                · intro t' hmem
                  exact hinv.ignOk t' hmem
                · intro t' d' w hw
                  rw [show ({ S with matchC := ((preprocessData data row.speaker,
                      row.speechdate), v) :: S.matchC } : CacheState).matchC
                      = ((preprocessData data row.speaker, row.speechdate), v)
                        :: S.matchC from rfl, alookup_cons] at hw
                  by_cases hee : ((preprocessData data row.speaker, row.speechdate)
                      : String × Int) = (t', d')
                  · rw [if_pos hee] at hw
                    injection hw with hw2
                    rw [← hw2]
                    exact hv
                  · rw [if_neg hee] at hw
                    exact hinv.truthyOk t' d' w hw
              · rw [hrc2]
                simp [classOf]
              · intro p c hp
                by_cases hpe : p = ((preprocessData data row.speaker, row.speechdate)
                    : String × Int)
                · rw [hpe] at hp ⊢
                  have : RClass S (preprocessData data row.speaker) row.speechdate
                      = some Class.ma := by
                    simp [RClass, hb1, heq, hb3, hm0]
                  rw [this] at hp
                  cases hp
                  exact hrc2
                · have hne : ((preprocessData data row.speaker, row.speechdate)
                      : String × Int) ≠ p := fun hh => hpe hh.symm
                  simp only [RClass, alookup_cons, if_neg hne] at hp ⊢
                  exact hp
              · intro c hcl
                have : RClass S (preprocessData data row.speaker) row.speechdate
                    = some Class.ma := by
                  simp [RClass, hb1, heq, hb3, hm0]
                rw [this] at hcl
                cases hcl
                simp [classOf]
            | none =>
              rw [hm0] at hc
              rw [hm0] at hb4
              simp only [truthyO, Bool.not_false, Bool.true_and] at hb4
              have hft : res.finalTarget = preprocessData data row.speaker := by
                rw [(cascade_finalTarget data row none
                  (preprocessData data row.speaker) res hc).1]
                have hs2 : collapseSpaces (stripInitials (preprocessData data row.speaker))
                    = preprocessData data row.speaker := hstrip
                cases res.permRan <;> simp [hs2]
              have hTON := cascade_TON data row (preprocessData data row.speaker) res hwf hc
              simp only [finalize] at h
              cases hmt : res.mtch with
              | some v =>
                have hv := hTON v hmt
                rw [hmt, hft] at h
                cases h
                have hrc2 : RClass
                    { S with matchC := ((preprocessData data row.speaker, row.speechdate), v)
                        :: S.matchC }
                    (preprocessData data row.speaker) row.speechdate = some Class.ma := by
                  simp [RClass, hb1, heq, hb3, alookup]
                refine ⟨?_, ?_, ?_, ?_⟩
                · refine ⟨?_, ?_, ?_, ?_⟩
                  · intro t' d'
                    refine ⟨?_, ?_, ?_⟩
                    · intro hmem
                      have ho := (hinv.mutex t' d').1 hmem
                      refine ⟨ho.1, ho.2.1, ?_⟩
                      show alookup (((preprocessData data row.speaker, row.speechdate), v)
                          :: S.matchC) (t', d') = none
                      rw [alookup_cons]
                      rw [if_neg ?_]
                      · exact ho.2.2
                      · intro hee
                        rw [hee] at hb1
                        exact hb1 hmem
                    · intro hsome
                      have ho := (hinv.mutex t' d').2.1 hsome
                      refine ⟨ho.1, ?_⟩
                      show alookup (((preprocessData data row.speaker, row.speechdate), v)
                          :: S.matchC) (t', d') = none
                      rw [alookup_cons]
                      rw [if_neg ?_]
                      · exact ho.2
                      · intro hee
                        rw [hee] at heq
                        rw [heq] at hsome
                        cases hsome
                    · intro hmem
                      show alookup (((preprocessData data row.speaker, row.speechdate), v)
                          :: S.matchC) (t', d') = none
                      rw [alookup_cons]
                      rw [if_neg ?_]
                      · exact (hinv.mutex t' d').2.2 hmem
                      · intro hee
                        have ht2 : t' = preprocessData data row.speaker := by
                          have := congrArg Prod.fst hee
                          exact this.symm
                        rw [ht2] at hmem
                        exact hb3 hmem
                  · intro t' d' hk
                    rcases hk with hk1 | hk2 | hk3
                    · exact hinv.keysOk t' d' (Or.inl hk1)
                    · exact hinv.keysOk t' d' (Or.inr (Or.inl hk2))
                    · by_cases hee : ((preprocessData data row.speaker, row.speechdate)
                          : String × Int) = (t', d')
                      · have ht2 : t' = preprocessData data row.speaker := by
                          have := congrArg Prod.fst hee
                          exact this.symm
                        rw [ht2]
                        exact hb4
                      · rw [show ({ S with matchC := ((preprocessData data row.speaker,
                            row.speechdate), v) :: S.matchC } : CacheState).matchC
                            = ((preprocessData data row.speaker, row.speechdate), v)
                              :: S.matchC from rfl, alookup_cons, if_neg hee] at hk3
                        exact hinv.keysOk t' d' (Or.inr (Or.inr hk3))
                  · intro t' hmem
                    exact hinv.ignOk t' hmem
                  · intro t' d' w hw
                    rw [show ({ S with matchC := ((preprocessData data row.speaker,
                        row.speechdate), v) :: S.matchC } : CacheState).matchC
                        = ((preprocessData data row.speaker, row.speechdate), v)
                          :: S.matchC from rfl, alookup_cons] at hw
                    by_cases hee : ((preprocessData data row.speaker, row.speechdate)
                        : String × Int) = (t', d')
                    · rw [if_pos hee] at hw
                      injection hw with hw2
                      rw [← hw2]
                      exact hv
                    · rw [if_neg hee] at hw
                      exact hinv.truthyOk t' d' w hw
                · rw [hrc2]
                  simp [classOf]
                · intro p c hp
                  by_cases hpe : p = ((preprocessData data row.speaker, row.speechdate)
                      : String × Int)
                  · rw [hpe] at hp
                    simp [RClass, hb1, heq, hb3, hm0] at hp
                  · have hne : ((preprocessData data row.speaker, row.speechdate)
                        : String × Int) ≠ p := fun hh => hpe hh.symm
                    simp only [RClass, alookup_cons, if_neg hne] at hp ⊢
                    exact hp
                · intro c hcl
                  simp [RClass, hb1, heq, hb3, hm0] at hcl
              | none =>
                rw [hmt] at h
                cases hab : res.ambiguity with
                | true =>
                  rw [hab] at h
                  simp only [if_true] at h
                  have hS2eq : ∀ (val : Option String) (sg : Option OutVal),
                      (Except.ok ((⟨sg, true, res.fuzzy, false⟩ : RowOut),
                        ({ S with ambigC := ((preprocessData data row.speaker,
                          row.speechdate), val) :: S.ambigC } : CacheState))
                        : Except Err (RowOut × CacheState)) = Except.ok (out, S2) →
                      Inv data S2
                      ∧ RClass S2 (preprocessData data row.speaker) row.speechdate
                        = some (classOf out)
                      ∧ (∀ p : String × Int, ∀ c, RClass S p.1 p.2 = some c →
                          RClass S2 p.1 p.2 = some c)
                      ∧ (∀ c, RClass S (preprocessData data row.speaker) row.speechdate
                          = some c → classOf out = c) := by
                    intro val sg hh
                    cases hh
                    have hrc2 : RClass
                        { S with ambigC := ((preprocessData data row.speaker,
                            row.speechdate), val) :: S.ambigC }
                        (preprocessData data row.speaker) row.speechdate
                        = some Class.am := by
                      simp [RClass, hb1, alookup]
                    refine ⟨?_, ?_, ?_, ?_⟩
                    · refine ⟨?_, ?_, ?_, ?_⟩
                      · intro t' d'
                        refine ⟨?_, ?_, ?_⟩
                        · intro hmem
                          have ho := (hinv.mutex t' d').1 hmem
                          refine ⟨?_, ho.2.1, ho.2.2⟩
                          show alookup (((preprocessData data row.speaker,
                              row.speechdate), val) :: S.ambigC) (t', d') = none
                          rw [alookup_cons]
                          rw [if_neg ?_]
                          · exact ho.1
                          · intro hee
                            rw [hee] at hb1
                            exact hb1 hmem
                        · intro hsome
                          rw [show ({ S with ambigC := ((preprocessData data row.speaker,
                              row.speechdate), val) :: S.ambigC } : CacheState).ambigC
                              = ((preprocessData data row.speaker, row.speechdate), val)
                                :: S.ambigC from rfl, alookup_cons] at hsome
                          by_cases hee : ((preprocessData data row.speaker, row.speechdate)
                              : String × Int) = (t', d')
                          · have ht2 : t' = preprocessData data row.speaker := by
                              have := congrArg Prod.fst hee
                              exact this.symm
                            have hd2 : d' = row.speechdate := by
                              have := congrArg Prod.snd hee
                              exact this.symm
                            rw [ht2, hd2]
                            exact ⟨hb3, hm0⟩
                          · rw [if_neg hee] at hsome
                            exact (hinv.mutex t' d').2.1 hsome
                        · intro hmem
                          exact (hinv.mutex t' d').2.2 hmem
                      · intro t' d' hk
                        rcases hk with hk1 | hk2 | hk3
                        · exact hinv.keysOk t' d' (Or.inl hk1)
                        · rw [show ({ S with ambigC := ((preprocessData data row.speaker,
                              row.speechdate), val) :: S.ambigC } : CacheState).ambigC
                              = ((preprocessData data row.speaker, row.speechdate), val)
                                :: S.ambigC from rfl, alookup_cons] at hk2
                          by_cases hee : ((preprocessData data row.speaker, row.speechdate)
                              : String × Int) = (t', d')
                          · have ht2 : t' = preprocessData data row.speaker := by
                              have := congrArg Prod.fst hee
                              exact this.symm
                            rw [ht2]
                            exact hb4
                          · rw [if_neg hee] at hk2
                            exact hinv.keysOk t' d' (Or.inr (Or.inl hk2))
                        · exact hinv.keysOk t' d' (Or.inr (Or.inr hk3))
                      · intro t' hmem
                        exact hinv.ignOk t' hmem
                      · intro t' d' w hw
                        exact hinv.truthyOk t' d' w hw
                    · rw [hrc2]
                      simp [classOf]
                    · intro p c hp
                      by_cases hpe : p = ((preprocessData data row.speaker,
                          row.speechdate) : String × Int)
                      · rw [hpe] at hp
                        simp [RClass, hb1, heq, hb3, hm0] at hp
                      · have hne : ((preprocessData data row.speaker, row.speechdate)
                            : String × Int) ≠ p := fun hh => hpe hh.symm
                        simp only [RClass, alookup_cons, if_neg hne] at hp ⊢
                        exact hp
                    · intro c hcl
                      simp [RClass, hb1, heq, hb3, hm0] at hcl
                  cases hlst : (res.possibles.filter mvalTruthy).map mvalJoinStr with
                  | nil =>
                    rw [hlst, hft] at h
                    exact hS2eq none (some (OutVal.str (preprocessData data row.speaker))) h
                  | cons p ps =>
                    rw [hlst, hft] at h
                    exact hS2eq (some (joinBar (p :: ps))) (some (OutVal.str (joinBar (p :: ps)))) h
                | false =>
                  rw [hab] at h
                  simp only [if_false] at h
                  rw [hft] at h
                  cases h
                  have hrc2 : RClass
                      { S with missC := (preprocessData data row.speaker, row.speechdate)
                          :: S.missC }
                      (preprocessData data row.speaker) row.speechdate = some Class.mi := by
                    simp [RClass, List.contains_cons]
                  refine ⟨?_, ?_, ?_, ?_⟩
                  · refine ⟨?_, ?_, ?_, ?_⟩
                    · intro t' d'
                      refine ⟨?_, ?_, ?_⟩
                      · intro hmem
                        rcases List.mem_cons.mp hmem with hEq | hold
                        · have ht2 : t' = preprocessData data row.speaker := by
                            have := congrArg Prod.fst hEq
                            exact this
                          have hd2 : d' = row.speechdate := by
                            have := congrArg Prod.snd hEq
                            exact this
                          rw [ht2, hd2]
                          exact ⟨heq, hb3, hm0⟩
                        · exact (hinv.mutex t' d').1 hold
                      · intro hsome
                        exact (hinv.mutex t' d').2.1 hsome
                      · intro hmem
                        exact (hinv.mutex t' d').2.2 hmem
                    · intro t' d' hk
                      rcases hk with hk1 | hk2 | hk3
                      · rcases List.mem_cons.mp hk1 with hEq | hold
                        · have ht2 : t' = preprocessData data row.speaker := by
                            have := congrArg Prod.fst hEq
                            exact this
                          rw [ht2]
                          exact hb4
                        · exact hinv.keysOk t' d' (Or.inl hold)
                      · exact hinv.keysOk t' d' (Or.inr (Or.inl hk2))
                      · exact hinv.keysOk t' d' (Or.inr (Or.inr hk3))
                    · intro t' hmem
                      exact hinv.ignOk t' hmem
                    · intro t' d' w hw
                      exact hinv.truthyOk t' d' w hw
                  · rw [hrc2]
                    simp [classOf]
                  · intro p c hp
                    by_cases hpe : p = ((preprocessData data row.speaker, row.speechdate)
                        : String × Int)
                    · rw [hpe] at hp
                      simp [RClass, hb1, heq, hb3, hm0] at hp
                    · have hcc : ((preprocessData data row.speaker, row.speechdate)
                          :: S.missC).contains (p.1, p.2) = S.missC.contains (p.1, p.2) := by
                        apply contains_cons_ne
                        intro hh
                        exact hpe (by rw [← hh])
                      simp only [RClass, hcc] at hp ⊢
                      exact hp
                  · intro c hcl
                    simp [RClass, hb1, heq, hb3, hm0] at hcl

end Hansard


namespace Hansard

theorem Inv_empty (data : Data) : Inv data emptyCaches := by
  refine ⟨?_, ?_, ?_, ?_⟩
  · intro t d
    refine ⟨?_, ?_, ?_⟩
    · intro hmem
      cases hmem
    · intro hsome
      simp [emptyCaches, alookup] at hsome
    · intro hmem
      cases hmem
  · intro t d hk
    rcases hk with hk1 | hk2 | hk3
    · cases hk1
    · simp [emptyCaches, alookup] at hk2
    · simp [emptyCaches, alookup] at hk3
  · intro t hmem
    cases hmem
  · intro t d v hv
    simp [emptyCaches, alookup] at hv

/-- A batch preserves the invariant; every previously recorded pair stays
recorded; and after the batch, every processed row's pair is recorded with
exactly that row's emitted classification. -/
theorem processChunk_class (data : Data) (hwf : WFData data) :
    ∀ (rows : List Row) (S : CacheState) (outs : List RowOut) (Sf : CacheState),
      (∀ row ∈ rows, rowStrip data row) → Inv data S →
      processChunk data rows S = .ok (outs, Sf) →
      outs.length = rows.length
      ∧ Inv data Sf
      ∧ (∀ p : String × Int, ∀ c, RClass S p.1 p.2 = some c → RClass Sf p.1 p.2 = some c)
      ∧ (∀ (i : Nat) (hi : i < rows.length) (hi2 : i < outs.length),
          RClass Sf (preprocessData data (rows.get ⟨i, hi⟩).speaker)
            (rows.get ⟨i, hi⟩).speechdate = some (classOf (outs.get ⟨i, hi2⟩))) := by
  intro rows
  induction rows with
  | nil =>
    intro S outs Sf _ hinv h
    unfold processChunk at h
    cases h
    refine ⟨rfl, hinv, ?_, ?_⟩
    · intro p c hp
      exact hp
    · intro i hi
      cases hi
  | cons r rest ih =>
    intro S outs Sf hstrip hinv h
    unfold processChunk at h
    cases hp1 : processRow data S r with
    | error e => simp only [bind, Except.bind, hp1] at h; cases h
    | ok oS1 =>
      obtain ⟨o, S1⟩ := oS1
      cases hp2 : processChunk data rest S1 with
      | error e =>
        simp only [bind, Except.bind, pure, Except.pure, hp1, hp2] at h
        cases h
      | ok osSf =>
        obtain ⟨os, Sf2⟩ := osSf
        simp only [bind, Except.bind, pure, Except.pure, hp1, hp2] at h
        cases h
        have hstep := processRow_step data S r o S1 hwf
          (hstrip r (List.mem_cons_self _ _)) hinv hp1
        have hrest := ih S1 os Sf
          (fun row hr => hstrip row (List.mem_cons_of_mem _ hr)) hstep.1 hp2
        refine ⟨?_, hrest.2.1, ?_, ?_⟩
        · simp [List.length_cons, hrest.1]
        · intro p c hp
          exact hrest.2.2.1 p c (hstep.2.2.1 p c hp)
        · intro i hi hi2
          cases i with
          | zero =>
            exact hrest.2.2.1
              (preprocessData data r.speaker, r.speechdate) (classOf o) hstep.2.1
          | succ n =>
            exact hrest.2.2.2 n (Nat.lt_of_succ_lt_succ hi) (Nat.lt_of_succ_lt_succ hi2)

end Hansard


namespace Hansard

set_option maxRecDepth 100000
set_option maxHeartbeats 4000000

theorem RClass_isSome (S : CacheState) (t : String) (d : Int)
    (h : (t, d) ∈ S.missC ∨ (alookup S.ambigC (t, d)).isSome = true
      ∨ t ∈ S.ignoredC ∨ (alookup S.matchC (t, d)).isSome = true) :
    (RClass S t d).isSome = true := by
  unfold RClass
  by_cases hm : S.missC.contains (t, d) = true
  · rw [if_pos hm]; rfl
  · rw [if_neg hm]
    cases ha : alookup S.ambigC (t, d) with
    | some v => rfl
    | none =>
      by_cases hi : S.ignoredC.contains t = true
      · rw [if_pos hi]; rfl
      · rw [if_neg hi]
        by_cases hma : (alookup S.matchC (t, d)).isSome = true
        · rw [if_pos hma]; rfl
        · exfalso
          rcases h with h1 | h2 | h3 | h4
          · exact hm (by simpa using h1)
          · rw [ha] at h2; cases h2
          · exact hi (by simpa using h3)
          · exact hma h4

/-- C9 (amended core): when an ambiguous-empty outcome is cached under the
row's own label (no permutation rewrite), the first occurrence keeps the
label in `suggested_speaker`, the ambiguity cache stores `None`, and a
repeat of the same pair is served from the cache with a null
`suggested_speaker`. -/
theorem ambig_empty_kept_and_replayed
    (data : Data) (S : CacheState) (row row2 : Row) (res : CascadeRes)
    (hfresh : freshPair S (preprocessData data row.speaker) row.speechdate)
    (hign : ignorable data (preprocessData data row.speaker) = false)
    (hc : cascade data row none (preprocessData data row.speaker) = .ok res)
    (hm : res.mtch = none) (ha : res.ambiguity = true)
    (hp : res.possibles.filter mvalTruthy = [])
    (hft : res.finalTarget = preprocessData data row.speaker)
    (hpair2 : preprocessData data row2.speaker = preprocessData data row.speaker)
    (hdate2 : row2.speechdate = row.speechdate) :
    processRow data S row = .ok
      (⟨some (.str (preprocessData data row.speaker)), true, res.fuzzy, false⟩,
       { S with ambigC := ((preprocessData data row.speaker, row.speechdate), none)
           :: S.ambigC })
    ∧ processRow data
        { S with ambigC := ((preprocessData data row.speaker, row.speechdate), none)
            :: S.ambigC } row2 = .ok
      (⟨none, true, S.fuzzyC.contains (preprocessData data row.speaker, row.speechdate),
        false⟩,
       { S with ambigC := ((preprocessData data row.speaker, row.speechdate), none)
           :: S.ambigC }) := by
  rw [freshPair_iff] at hfresh
  obtain ⟨hf1, hf2, hf3, hf4⟩ := hfresh
  constructor
  · simp only [processRow, hf1, hf2, hf3, hf4, hign, truthyO, Bool.not_false,
      Bool.and_false, Bool.false_eq_true, if_false, bind, Except.bind, hc, finalize,
      hm, ha, hp, List.map_nil, if_true, hft]
  · have hf1m : (preprocessData data row.speaker, row.speechdate) ∉ S.missC := by
      simpa using hf1
    simp [processRow, hpair2, hdate2, hf1m, alookup_cons, bind, Except.bind]

/-- C10: when the permutation stage runs, the final cache entry is keyed by
the collapsed, initial-stripped label; if that differs from the normalized
label, the pair stays fresh under its own key (later probes with the
original label still miss every cache) while the rewritten key is the one
recorded. -/
theorem perm_rewrite_cache_key
    (data : Data) (S : CacheState) (row : Row) (res : CascadeRes) (out : RowOut)
    (S2 : CacheState)
    (hfresh : freshPair S (preprocessData data row.speaker) row.speechdate)
    (hign : ignorable data (preprocessData data row.speaker) = false)
    (hc : cascade data row none (preprocessData data row.speaker) = .ok res)
    (hperm : res.permRan = true)
    (hproc : processRow data S row = .ok (out, S2))
    (hch : collapseSpaces (stripInitials (preprocessData data row.speaker))
        ≠ preprocessData data row.speaker) :
    res.finalTarget = collapseSpaces (stripInitials (preprocessData data row.speaker))
    ∧ freshPair S2 (preprocessData data row.speaker) row.speechdate
    ∧ (RClass S2 res.finalTarget row.speechdate).isSome = true := by
  have hftv := (cascade_finalTarget data row none
    (preprocessData data row.speaker) res hc).1
  simp only [hperm, if_true] at hftv
  refine ⟨hftv, ?_⟩
  rw [freshPair_iff] at hfresh
  obtain ⟨hf1, hf2, hf3, hf4⟩ := hfresh
  have hne : res.finalTarget ≠ preprocessData data row.speaker := by
    rw [hftv]; exact hch
  have hnep : ((res.finalTarget, row.speechdate) : String × Int)
      ≠ (preprocessData data row.speaker, row.speechdate) := by
    intro hh
    exact hne (congrArg Prod.fst hh)
  simp only [processRow, hf1, hf2, hf3, hf4, hign, truthyO, Bool.not_false,
    Bool.and_false, Bool.false_eq_true, if_false, bind, Except.bind, hc] at hproc
  cases hmt : res.mtch with
  | some v =>
    rw [finalize, hmt] at hproc
    cases hproc
    constructor
    · rw [freshPair_iff]
      refine ⟨hf1, hf2, hf3, ?_⟩
      show alookup (((res.finalTarget, row.speechdate), v) :: S.matchC)
        (preprocessData data row.speaker, row.speechdate) = none
      rw [alookup_cons, if_neg hnep]
      exact hf4
    · apply RClass_isSome
      refine Or.inr (Or.inr (Or.inr ?_))
      show (alookup (((res.finalTarget, row.speechdate), v) :: S.matchC)
        (res.finalTarget, row.speechdate)).isSome = true
      rw [alookup_cons, if_pos rfl]
      rfl
  | none =>
    rw [finalize, hmt] at hproc
    cases hamb : res.ambiguity with
    | true =>
      rw [hamb] at hproc
      cases hps : (res.possibles.filter mvalTruthy).map mvalJoinStr with
      | nil =>
        rw [hps] at hproc
        cases hproc
        constructor
        · rw [freshPair_iff]
          refine ⟨hf1, ?_, hf3, hf4⟩
          show alookup (((res.finalTarget, row.speechdate), none) :: S.ambigC)
            (preprocessData data row.speaker, row.speechdate) = none
          rw [alookup_cons, if_neg hnep]
          exact hf2
        · apply RClass_isSome
          refine Or.inr (Or.inl ?_)
          show (alookup (((res.finalTarget, row.speechdate), none) :: S.ambigC)
            (res.finalTarget, row.speechdate)).isSome = true
          rw [alookup_cons, if_pos rfl]
          rfl
      | cons p ps =>
        rw [hps] at hproc
        cases hproc
        constructor
        · rw [freshPair_iff]
          refine ⟨hf1, ?_, hf3, hf4⟩
          show alookup (((res.finalTarget, row.speechdate), some (joinBar (p :: ps)))
              :: S.ambigC)
            (preprocessData data row.speaker, row.speechdate) = none
          rw [alookup_cons, if_neg hnep]
          exact hf2
        · apply RClass_isSome
          refine Or.inr (Or.inl ?_)
          show (alookup (((res.finalTarget, row.speechdate), some (joinBar (p :: ps)))
              :: S.ambigC)
            (res.finalTarget, row.speechdate)).isSome = true
          rw [alookup_cons, if_pos rfl]
          rfl
    | false =>
      rw [hamb] at hproc
      cases hproc
      constructor
      · rw [freshPair_iff]
        refine ⟨?_, hf2, hf3, hf4⟩
        show ((res.finalTarget, row.speechdate) :: S.missC).contains
          (preprocessData data row.speaker, row.speechdate) = false
        rw [contains_cons_ne _ _ _ (Ne.symm hnep)]
        exact hf1
      · apply RClass_isSome
        refine Or.inl ?_
        show (res.finalTarget, row.speechdate)
          ∈ (res.finalTarget, row.speechdate) :: S.missC
        exact List.mem_cons_self _ _

end Hansard

namespace Hansard

set_option maxRecDepth 100000
set_option maxHeartbeats 4000000

/-- C3 (amended): for a batch of rows whose labels the permutation stage
would not rewrite, run over well-formed data from empty caches, the four
cache tables are mutually exclusive at the end and every processed pair is
recorded in exactly one of them. -/
theorem cache_tables_exclusive_amended
    (data : Data) (rows : List Row) (outs : List RowOut) (Sf : CacheState)
    (hwf : WFData data)
    (hstrip : ∀ row ∈ rows, rowStrip data row)
    (h : processChunk data rows emptyCaches = .ok (outs, Sf)) :
    MutEx Sf
    ∧ ∀ row ∈ rows,
        (RClass Sf (preprocessData data row.speaker) row.speechdate).isSome = true := by
  have hall := processChunk_class data hwf rows emptyCaches outs Sf hstrip
    (Inv_empty data) h
  refine ⟨hall.2.1.mutex, ?_⟩
  intro row hr
  obtain ⟨⟨i, hi⟩, hget⟩ := List.mem_iff_get.mp hr
  have hi2 : i < outs.length := by rw [hall.1]; exact hi
  have hcl := hall.2.2.2 i hi hi2
  rw [hget] at hcl
  rw [hcl]
  rfl

theorem cache_tables_exclusive_amended_witness :
    MutEx stateF2val
    ∧ ∀ row ∈ [rowFuzzy, rowFuzzy],
        (RClass stateF2val (preprocessData dataFuzzy row.speaker)
          row.speechdate).isSome = true :=
  cache_tables_exclusive_amended dataFuzzy [rowFuzzy, rowFuzzy] outsF2val stateF2val
    ⟨by decide, fun t d h deb => Or.inl rfl⟩ (by decide) (by decide)

/-- C8 (amended): for a batch of rows whose labels the permutation stage
would not rewrite, run over well-formed data from empty caches, two rows
bearing the same normalized (label, date) pair receive the same
classification. -/
theorem determinism_amended
    (data : Data) (rows : List Row) (outs : List RowOut) (Sf : CacheState)
    (hwf : WFData data)
    (hstrip : ∀ row ∈ rows, rowStrip data row)
    (h : processChunk data rows emptyCaches = .ok (outs, Sf))
    (i j : Nat) (hi : i < rows.length) (hj : j < rows.length)
    (hpair : rowPair data (rows.get ⟨i, hi⟩) = rowPair data (rows.get ⟨j, hj⟩)) :
    ∀ (hi2 : i < outs.length) (hj2 : j < outs.length),
      classOf (outs.get ⟨i, hi2⟩) = classOf (outs.get ⟨j, hj2⟩) := by
  intro hi2 hj2
  have hall := processChunk_class data hwf rows emptyCaches outs Sf hstrip
    (Inv_empty data) h
  have h1 := hall.2.2.2 i hi hi2
  have h2 := hall.2.2.2 j hj hj2
  have ht : preprocessData data (rows.get ⟨i, hi⟩).speaker
      = preprocessData data (rows.get ⟨j, hj⟩).speaker :=
    congrArg Prod.fst hpair
  have hd : (rows.get ⟨i, hi⟩).speechdate = (rows.get ⟨j, hj⟩).speechdate :=
    congrArg Prod.snd hpair
  rw [ht, hd, h2] at h1
  exact (Option.some.inj h1).symm

theorem determinism_amended_witness :
    classOf (outsF2val.get ⟨0, by decide⟩) = classOf (outsF2val.get ⟨1, by decide⟩) :=
  determinism_amended dataFuzzy [rowFuzzy, rowFuzzy] outsF2val stateF2val
    ⟨by decide, fun t d h deb => Or.inl rfl⟩ (by decide) (by decide)
    0 1 (by decide) (by decide) rfl (by decide) (by decide)

theorem ambig_empty_kept_and_replayed_witness :
    processRow dataAmbig emptyCaches rowAmbig = .ok
      (⟨some (.str (preprocessData dataAmbig rowAmbig.speaker)), true,
        resAmbigVal.fuzzy, false⟩,
       { emptyCaches with
           ambigC := ((preprocessData dataAmbig rowAmbig.speaker,
             rowAmbig.speechdate), none) :: emptyCaches.ambigC })
    ∧ processRow dataAmbig
        { emptyCaches with
            ambigC := ((preprocessData dataAmbig rowAmbig.speaker,
              rowAmbig.speechdate), none) :: emptyCaches.ambigC } rowAmbig = .ok
      (⟨none, true,
        emptyCaches.fuzzyC.contains (preprocessData dataAmbig rowAmbig.speaker,
          rowAmbig.speechdate), false⟩,
       { emptyCaches with
           ambigC := ((preprocessData dataAmbig rowAmbig.speaker,
             rowAmbig.speechdate), none) :: emptyCaches.ambigC }) :=
  ambig_empty_kept_and_replayed dataAmbig emptyCaches rowAmbig rowAmbig resAmbigVal
    (by decide) (by decide) (by decide) rfl rfl (by decide) (by decide) rfl rfl

theorem perm_rewrite_cache_key_witness :
    resPermVal.finalTarget
      = collapseSpaces (stripInitials (preprocessData dataPerm rowPerm.speaker))
    ∧ freshPair statePermVal (preprocessData dataPerm rowPerm.speaker)
        rowPerm.speechdate
    ∧ (RClass statePermVal resPermVal.finalTarget rowPerm.speechdate).isSome = true :=
  perm_rewrite_cache_key dataPerm emptyCaches rowPerm resPermVal outPermVal
    statePermVal (by decide) (by decide) (by decide) rfl (by decide) (by decide)

end Hansard
